import Mathlib

/-!
Verification of the session/room/connection coordination core of the
`lupin` board-game server, shallowly embedded from the Python sources.

Python `dict`s are modelled as insertion-ordered association lists
(`PyDict`), Python `set`s of websockets as `Finset Nat` (websocket
objects are identified by opaque numerals), and `datetime.now()` values
as `Nat` clock parameters supplied by the caller.
-/

namespace PyDict

variable {α : Type} {β : Type} [DecidableEq α]

/-- `d.get(k)` / `d[k]` lookup: first entry with the key. -/
def lookup (l : List (α × β)) (k : α) : Option β :=
  (l.find? (fun p => p.1 = k)).map (·.2)

/-- `k in d`. -/
def contains (l : List (α × β)) (k : α) : Bool :=
  (lookup l k).isSome

/-- `d[k] = v`: updates in place when the key exists (keeping its
position, as CPython dicts do), otherwise appends at the end. -/
def insert (l : List (α × β)) (k : α) (v : β) : List (α × β) :=
  if contains l k then
    l.map (fun p => if p.1 = k then (k, v) else p)
  else
    l ++ [(k, v)]

/-- `del d[k]` (total: removes every entry with the key). -/
def erase (l : List (α × β)) (k : α) : List (α × β) :=
  l.filter (fun p => ¬ p.1 = k)

theorem find?_key_cons_pos (t : List (α × β)) {p : α × β} {k : α}
    (h : p.1 = k) :
    (p :: t).find? (fun q => decide (q.1 = k)) = some p := by
  apply List.find?_cons_of_pos
  simp [h]

theorem find?_key_cons_neg (t : List (α × β)) {p : α × β} {k : α}
    (h : ¬ p.1 = k) :
    (p :: t).find? (fun q => decide (q.1 = k))
      = t.find? (fun q => decide (q.1 = k)) := by
  apply List.find?_cons_of_neg
  simp [h]

theorem find?_map_update (l : List (α × β)) (k k' : α) (v : β)
    (h : k' ≠ k) :
    (l.map (fun p => if p.1 = k then (k, v) else p)).find?
        (fun p => decide (p.1 = k'))
      = l.find? (fun p => decide (p.1 = k')) := by
  induction l with
  | nil => rfl
  | cons p t ih =>
    by_cases hk : p.1 = k
    · have h1 : ¬ ((k, v) : α × β).1 = k' := fun hc => h (hc.symm)
      have h2 : ¬ (p.1 = k') := by rw [hk]; exact fun hc => h hc.symm
      rw [List.map_cons, if_pos hk, find?_key_cons_neg _ h1,
        find?_key_cons_neg _ h2, ih]
    · by_cases hk' : p.1 = k'
      · rw [List.map_cons, if_neg hk, find?_key_cons_pos _ hk',
          find?_key_cons_pos _ hk']
      · rw [List.map_cons, if_neg hk, find?_key_cons_neg _ hk',
          find?_key_cons_neg _ hk', ih]

theorem find?_append_single (l : List (α × β)) (k k' : α) (v : β)
    (h : k' ≠ k) :
    (l ++ [(k, v)]).find? (fun p => decide (p.1 = k'))
      = l.find? (fun p => decide (p.1 = k')) := by
  induction l with
  | nil =>
    have h1 : ¬ ((k, v) : α × β).1 = k' := fun hc => h (hc.symm)
    simp only [List.nil_append]
    rw [find?_key_cons_neg _ h1]
  | cons p t ih =>
    by_cases hk' : p.1 = k'
    · rw [List.cons_append, find?_key_cons_pos _ hk',
        find?_key_cons_pos _ hk']
    · rw [List.cons_append, find?_key_cons_neg _ hk',
        find?_key_cons_neg _ hk', ih]

theorem lookup_insert_self (l : List (α × β)) (k : α) (v : β) :
    lookup (insert l k v) k = some v := by
  unfold insert
  split
  · rename_i h
    unfold contains lookup at h
    unfold lookup
    induction l with
    | nil => simp at h
    | cons p t ih =>
      by_cases hk : p.1 = k
      · rw [List.map_cons, if_pos hk,
          find?_key_cons_pos _ (show ((k, v) : α × β).1 = k from rfl)]
        rfl
      · rw [find?_key_cons_neg _ hk] at h
        rw [List.map_cons, if_neg hk, find?_key_cons_neg _ hk]
        exact ih h
  · rename_i h
    unfold contains lookup at h
    unfold lookup
    induction l with
    | nil =>
      simp only [List.nil_append]
      rw [find?_key_cons_pos _ (show ((k, v) : α × β).1 = k from rfl)]
      rfl
    | cons p t ih =>
      by_cases hk : p.1 = k
      · rw [find?_key_cons_pos _ hk] at h
        simp at h
      · rw [find?_key_cons_neg _ hk] at h
        rw [List.cons_append, find?_key_cons_neg _ hk]
        exact ih h

theorem lookup_insert_ne (l : List (α × β)) (k k' : α) (v : β)
    (h : k' ≠ k) : lookup (insert l k v) k' = lookup l k' := by
  unfold insert lookup
  split
  · rw [find?_map_update l k k' v h]
  · rw [find?_append_single l k k' v h]

theorem lookup_erase_ne (l : List (α × β)) (k k' : α)
    (h : k' ≠ k) : lookup (erase l k) k' = lookup l k' := by
  unfold erase lookup
  induction l with
  | nil => simp
  | cons p t ih =>
    by_cases hk : p.1 = k
    · have h2 : ¬ (p.1 = k') := by rw [hk]; exact fun hc => h hc.symm
      rw [List.filter_cons_of_neg, find?_key_cons_neg _ h2]
      · exact ih
      · simp [hk]
    · rw [List.filter_cons_of_pos]
      · by_cases hk' : p.1 = k'
        · rw [find?_key_cons_pos _ hk', find?_key_cons_pos _ hk']
        · rw [find?_key_cons_neg _ hk', find?_key_cons_neg _ hk', ih]
      · simp [hk]

theorem lookup_erase_self (l : List (α × β)) (k : α) :
    lookup (erase l k) k = none := by
  unfold erase lookup
  induction l with
  | nil => simp
  | cons p t ih =>
    by_cases hk : p.1 = k
    · rw [List.filter_cons_of_neg]
      · exact ih
      · simp [hk]
    · rw [List.filter_cons_of_pos]
      · rw [find?_key_cons_neg _ hk]
        exact ih
      · simp [hk]

theorem mem_of_lookup_eq_some {l : List (α × β)} {k : α} {v : β}
    (h : lookup l k = some v) : (k, v) ∈ l := by
  unfold lookup at h
  cases hf : l.find? (fun p => decide (p.1 = k)) with
  | none => rw [hf] at h; simp at h
  | some p =>
    rw [hf] at h
    have hp := List.find?_some hf
    have hmem := List.mem_of_find?_eq_some hf
    simp only [decide_eq_true_eq] at hp
    have hv : p.2 = v := by
      simpa using h
    have hpe : p = (k, v) := by
      cases p with
      | mk a b =>
        simp only at hp hv
        rw [hp, hv]
    exact hpe ▸ hmem

end PyDict

/-- Python truthiness of an `Optional[str]` (`if session_id:`):
`None` and the empty string are falsy. -/
def truthyStr : Option String → Bool
  | none => false
  | some s => ¬ s.isEmpty

namespace PyDict

variable {α : Type} {β : Type} [DecidableEq α]

theorem mem_insert {l : List (α × β)} {k : α} {v : β} {p : α × β}
    (h : p ∈ insert l k v) : p = (k, v) ∨ p ∈ l := by
  unfold insert at h
  split at h
  · obtain ⟨q, hq, he⟩ := List.mem_map.mp h
    by_cases hkq : q.1 = k
    · left; rw [← he, if_pos hkq]
    · right; rw [← he, if_neg hkq]; exact hq
  · rcases List.mem_append.mp h with h1 | h1
    · right; exact h1
    · left; simpa using h1

theorem mem_insert_eq_of_key {l : List (α × β)} {k : α} {v : β}
    {p : α × β} (h : p ∈ insert l k v) (hk : p.1 = k) : p = (k, v) := by
  unfold insert at h
  split at h
  · obtain ⟨q, hq, he⟩ := List.mem_map.mp h
    by_cases hkq : q.1 = k
    · rw [← he, if_pos hkq]
    · rw [← he, if_neg hkq] at hk ⊢
      exact absurd hk hkq
  · rename_i hc
    rcases List.mem_append.mp h with h1 | h1
    · exfalso
      unfold contains lookup at hc
      have hnone : l.find? (fun q => decide (q.1 = k)) = none := by
        cases hf : l.find? (fun q => decide (q.1 = k)) with
        | none => rfl
        | some q => rw [hf] at hc; simp at hc
      have := List.find?_eq_none.mp hnone p h1
      simp [hk] at this
    · simpa using h1

theorem mem_of_mem_erase {l : List (α × β)} {k : α} {p : α × β}
    (h : p ∈ erase l k) : p ∈ l :=
  List.mem_of_mem_filter h

theorem not_key_of_not_contains {l : List (α × β)} {k : α}
    (hc : ¬ contains l k = true) : ∀ p ∈ l, ¬ p.1 = k := by
  intro p hp hk
  apply hc
  unfold contains lookup
  cases hf : l.find? (fun q => decide (q.1 = k)) with
  | none =>
    have := List.find?_eq_none.mp hf p hp
    simp [hk] at this
  | some q => simp [hf]

theorem length_filter_key_le_one {l : List (α × β)}
    (h : (l.map Prod.fst).Nodup) (k : α) :
    (l.filter (fun p => decide (p.1 = k))).length ≤ 1 := by
  induction l with
  | nil => simp
  | cons p t ih =>
    rw [List.map_cons, List.nodup_cons] at h
    by_cases hk : p.1 = k
    · rw [List.filter_cons_of_pos (by simp [hk])]
      have hzero : (t.filter (fun q => decide (q.1 = k))).length = 0 := by
        rw [List.length_eq_zero, List.filter_eq_nil_iff]
        intro q hq
        simp only [decide_eq_true_eq]
        intro hqk
        exact h.1 (by rw [hk, ← hqk]; exact List.mem_map_of_mem Prod.fst hq)
      simp [hzero]
    · rw [List.filter_cons_of_neg (by simp [hk])]
      exact ih h.2

theorem keys_nodup_insert {l : List (α × β)} {k : α} {v : β}
    (h : (l.map Prod.fst).Nodup) :
    ((insert l k v).map Prod.fst).Nodup := by
  unfold insert
  split
  · have : (l.map (fun p => if p.1 = k then (k, v) else p)).map Prod.fst
        = l.map Prod.fst := by
      rw [List.map_map]
      apply List.map_congr_left
      intro p _
      by_cases hk : p.1 = k
      · simp [hk]
      · simp [hk]
    rw [this]
    exact h
  · rename_i hc
    rw [List.map_append]
    apply List.Nodup.append h (by simp)
    intro a ha hb
    simp only [List.map_cons, List.map_nil, List.mem_singleton] at hb
    obtain ⟨p, hp, hpa⟩ := List.mem_map.mp ha
    exact not_key_of_not_contains hc p hp (by rw [hpa, hb])

theorem keys_nodup_erase {l : List (α × β)} {k : α}
    (h : (l.map Prod.fst).Nodup) :
    ((erase l k).map Prod.fst).Nodup :=
  ((List.filter_sublist l).map Prod.fst).nodup h

theorem filter_snd_erase_le [DecidableEq β] {l : List (α × β)} {k : α}
    {t : β} :
    ((erase l k).filter (fun p => decide (p.2 = t))).length ≤
      (l.filter (fun p => decide (p.2 = t))).length :=
  ((List.filter_sublist l).filter _).length_le

theorem filter_snd_insert_le [DecidableEq β] {l : List (α × β)} {k : α}
    {v : β}
    (hkeys : (l.map Prod.fst).Nodup)
    (hgood : ∀ p ∈ l, p.2 = v → p.1 = k)
    (hle : ∀ t, (l.filter (fun p => decide (p.2 = t))).length ≤ 1)
    (t : β) :
    ((insert l k v).filter (fun p => decide (p.2 = t))).length ≤ 1 := by
  unfold insert
  split
  · have hcnt : ((l.map (fun p => if p.1 = k then (k, v) else p)).filter
        (fun p => decide (p.2 = t))).length
        = l.countP ((fun p => decide (p.2 = t)) ∘
            (fun p => if p.1 = k then (k, v) else p)) := by
      rw [← List.countP_eq_length_filter, List.countP_map]
    rw [hcnt]
    by_cases ht : t = v
    · subst ht
      calc l.countP ((fun p => decide (p.2 = t)) ∘
              (fun p => if p.1 = k then (k, t) else p))
          ≤ l.countP (fun p => decide (p.1 = k)) := by
            apply List.countP_mono_left
            intro p hp hpq
            simp only [Function.comp_apply, decide_eq_true_eq] at hpq ⊢
            by_cases hk : p.1 = k
            · exact hk
            · rw [if_neg hk] at hpq
              exact absurd (hgood p hp hpq) hk
        _ = (l.filter (fun p => decide (p.1 = k))).length :=
            List.countP_eq_length_filter _ _
        _ ≤ 1 := length_filter_key_le_one hkeys k
    · calc l.countP ((fun p => decide (p.2 = t)) ∘
              (fun p => if p.1 = k then (k, v) else p))
          ≤ l.countP (fun p => decide (p.2 = t)) := by
            apply List.countP_mono_left
            intro p hp hpq
            simp only [Function.comp_apply, decide_eq_true_eq] at hpq ⊢
            by_cases hk : p.1 = k
            · rw [if_pos hk] at hpq
              exact absurd hpq.symm ht
            · rw [if_neg hk] at hpq
              exact hpq
        _ = (l.filter (fun p => decide (p.2 = t))).length :=
            List.countP_eq_length_filter _ _
        _ ≤ 1 := hle t
  · rename_i hc
    rw [List.filter_append]
    by_cases ht : t = v
    · subst ht
      have hnil : l.filter (fun p => decide (p.2 = t)) = [] := by
        rw [List.filter_eq_nil_iff]
        intro p hp
        simp only [decide_eq_true_eq]
        intro hpt
        exact not_key_of_not_contains hc p hp (hgood p hp hpt)
      simp [hnil]
    · have hvt : ¬ ((k, v) : α × β).2 = t := fun hv => ht hv.symm
      have hone : ([((k, v) : α × β)].filter
          (fun p => decide (p.2 = t))) = [] := by
        simp [hvt]
      rw [hone, List.append_nil]
      exact hle t

end PyDict

/-! ### ConnectionManager — `src/app/managers/connection_manager.py`

Websockets are opaque objects, modelled as `Nat`.  The three dicts of
the class are the state; methods that mutate `self` become functions
`State → ... → State`. -/

namespace ConnectionManager

structure State where
  connections : List (String × Finset Nat)
  websocket_sessions : List (Nat × String)
  session_to_room : List (String × String)
  deriving DecidableEq

/-- `__init__`. -/
def initial : State := ⟨[], [], []⟩

/-- `add_connection(room_id, websocket, session_id=None)`. -/
def add_connection (c : State) (room_id : String) (websocket : Nat)
    (session_id : Option String) : State :=
  let conns0 := if PyDict.contains c.connections room_id then c.connections
                else PyDict.insert c.connections room_id ∅
  let cur := (PyDict.lookup conns0 room_id).getD ∅
  let conns := PyDict.insert conns0 room_id (Insert.insert websocket cur)
  if truthyStr session_id then
    { connections := conns,
      websocket_sessions :=
        PyDict.insert c.websocket_sessions websocket (session_id.getD ""),
      session_to_room :=
        PyDict.insert c.session_to_room (session_id.getD "") room_id }
  else
    { c with connections := conns }

/-- `remove_connection(room_id, websocket)`; returns the new state and
the returned `disconnected_session_id`. -/
def remove_connection (c : State) (room_id : String) (websocket : Nat) :
    State × Option String :=
  let c1 :=
    if PyDict.contains c.connections room_id then
      let s := ((PyDict.lookup c.connections room_id).getD ∅).erase websocket
      if s = ∅ then
        { c with connections := PyDict.erase c.connections room_id }
      else
        { c with connections := PyDict.insert c.connections room_id s }
    else c
  match PyDict.lookup c1.websocket_sessions websocket with
  | some sid =>
      let c2 := { c1 with
        websocket_sessions := PyDict.erase c1.websocket_sessions websocket }
      let c3 :=
        if PyDict.contains c2.session_to_room sid then
          { c2 with session_to_room := PyDict.erase c2.session_to_room sid }
        else c2
      (c3, some sid)
  | none => (c1, none)

/-- `get_connections(room_id)`. -/
def get_connections (c : State) (room_id : String) : Finset Nat :=
  (PyDict.lookup c.connections room_id).getD ∅

/-- `has_connections(room_id)`:
`room_id in self.connections and bool(self.connections[room_id])`. -/
def has_connections (c : State) (room_id : String) : Bool :=
  PyDict.contains c.connections room_id &&
    decide (((PyDict.lookup c.connections room_id).getD ∅) ≠ ∅)

/-- `get_connection_count(room_id)`. -/
def get_connection_count (c : State) (room_id : String) : Nat :=
  ((PyDict.lookup c.connections room_id).getD ∅).card

/-- The `if old_websocket:` block of `handle_reconnection`: discards the
old websocket from the room's set and deletes its session mapping. -/
def evictOld (c : State) (room_id : String) (ows : Nat) : State :=
  let discarded := ((PyDict.lookup c.connections room_id).getD ∅).erase ows
  let ca :=
    if PyDict.contains c.connections room_id then
      { c with connections := PyDict.insert c.connections room_id discarded }
    else c
  if PyDict.contains ca.websocket_sessions ows then
    { ca with websocket_sessions := PyDict.erase ca.websocket_sessions ows }
  else ca

/-- `handle_reconnection(room_id, websocket, session_id)`. The
`for ws, sid in self.websocket_sessions.items(): ... break` scan is the
first entry, in insertion order, bound to the session. -/
def handle_reconnection (c : State) (room_id : String) (websocket : Nat)
    (session_id : String) : State :=
  let old_websocket :=
    (c.websocket_sessions.find? (fun p => p.2 = session_id)).map (·.1)
  let c1 := match old_websocket with
    | some ows => evictOld c room_id ows
    | none => c
  add_connection c1 room_id websocket (some session_id)

/-- Loop body of `cleanup_room_connections`: clears the session mapping
of one websocket. -/
def cleanupSessionStep (acc : State) (ws : Nat) : State :=
  match PyDict.lookup acc.websocket_sessions ws with
  | some sid =>
      let a1 := { acc with
        websocket_sessions := PyDict.erase acc.websocket_sessions ws }
      if PyDict.contains a1.session_to_room sid then
        { a1 with session_to_room := PyDict.erase a1.session_to_room sid }
      else a1
  | none => acc

/-- `cleanup_room_connections(room_id)` (the set is iterated in
ascending order; the loop body is order-independent). -/
def cleanup_room_connections (c : State) (room_id : String) : State :=
  let websockets := (PyDict.lookup c.connections room_id).getD ∅
  let c1 := (websockets.sort (· ≤ ·)).foldl cleanupSessionStep c
  if PyDict.contains c1.connections room_id then
    { c1 with connections := PyDict.erase c1.connections room_id }
  else c1

/-- The call surface the claims quantify over. -/
inductive Op where
  | add (room_id : String) (websocket : Nat) (session_id : Option String)
  | remove (room_id : String) (websocket : Nat)
  | reconnect (room_id : String) (websocket : Nat) (session_id : String)
  | cleanup (room_id : String)

def applyOp (c : State) : Op → State
  | .add r w s => add_connection c r w s
  | .remove r w => (remove_connection c r w).1
  | .reconnect r w s => handle_reconnection c r w s
  | .cleanup r => cleanup_room_connections c r

def runFrom (c : State) (ops : List Op) : State := ops.foldl applyOp c

def run (ops : List Op) : State := runFrom initial ops

/-- The connections of `room_id` that the `websocket_sessions` dict maps
to `session_id`. -/
def sessionConnections (c : State) (room_id session_id : String) :
    Finset Nat :=
  (get_connections c room_id).filter
    (fun w => PyDict.lookup c.websocket_sessions w = some session_id)

/-! Invariant: the `connections` dict never retains an empty set. -/

def NonemptyConns (c : State) : Prop :=
  ∀ p ∈ c.connections, p.2 ≠ (∅ : Finset Nat)

theorem add_connection_connections (c : State) (r : String) (w : Nat)
    (s : Option String) :
    (add_connection c r w s).connections =
      PyDict.insert
        (if PyDict.contains c.connections r then c.connections
         else PyDict.insert c.connections r ∅) r
        (Insert.insert w ((PyDict.lookup
          (if PyDict.contains c.connections r then c.connections
           else PyDict.insert c.connections r ∅) r).getD ∅)) := by
  unfold add_connection
  split <;> split <;> rfl

theorem mem_add_connection (c : State) (r : String) (w : Nat)
    (s : Option String) {p : String × Finset Nat}
    (hp : p ∈ (add_connection c r w s).connections) :
    (p.1 = r ∧ p.2 ≠ (∅ : Finset Nat)) ∨ (p.1 ≠ r ∧ p ∈ c.connections) := by
  rw [add_connection_connections] at hp
  have hp' := hp
  by_cases hk : p.1 = r
  · left
    refine ⟨hk, ?_⟩
    have := PyDict.mem_insert_eq_of_key hp' hk
    rw [this]
    exact Finset.insert_ne_empty _ _
  · right
    refine ⟨hk, ?_⟩
    rcases PyDict.mem_insert hp' with he | hm
    · exact absurd (by rw [he]) hk
    · split at hm
      · exact hm
      · rcases PyDict.mem_insert hm with he | hm'
        · exact absurd (by rw [he]) hk
        · exact hm'

theorem nonempty_add_connection {c : State} (h : NonemptyConns c)
    (r : String) (w : Nat) (s : Option String) :
    NonemptyConns (add_connection c r w s) := by
  intro p hp
  rcases mem_add_connection c r w s hp with ⟨_, hne⟩ | ⟨_, hm⟩
  · exact hne
  · exact h p hm

theorem remove_connection_connections (c : State) (r : String) (w : Nat) :
    ((remove_connection c r w).1).connections =
      (if PyDict.contains c.connections r then
        (if ((PyDict.lookup c.connections r).getD ∅).erase w = ∅ then
          PyDict.erase c.connections r
        else
          PyDict.insert c.connections r
            (((PyDict.lookup c.connections r).getD ∅).erase w))
       else c.connections) := by
  unfold remove_connection
  dsimp only
  repeat' split
  all_goals rfl

theorem nonempty_remove_connection {c : State} (h : NonemptyConns c)
    (r : String) (w : Nat) :
    NonemptyConns ((remove_connection c r w).1) := by
  intro p hp
  rw [remove_connection_connections] at hp
  split at hp
  · split at hp
    · exact h p (PyDict.mem_of_mem_erase hp)
    · rename_i hne
      rcases PyDict.mem_insert hp with he | hm
      · rw [he]; exact hne
      · exact h p hm
  · exact h p hp

theorem handle_reconnection_eq (c : State) (r : String) (w : Nat)
    (s : String) :
    handle_reconnection c r w s =
      add_connection
        (match c.websocket_sessions.find? (fun p => decide (p.2 = s)) with
         | some p0 => evictOld c r p0.1
         | none => c) r w (some s) := by
  unfold handle_reconnection
  cases c.websocket_sessions.find? (fun p => decide (p.2 = s)) <;> rfl

theorem evictOld_connections (c : State) (r : String) (ows : Nat) :
    (evictOld c r ows).connections =
      if PyDict.contains c.connections r then
        PyDict.insert c.connections r
          (((PyDict.lookup c.connections r).getD ∅).erase ows)
      else c.connections := by
  unfold evictOld
  dsimp only
  by_cases hct : PyDict.contains c.connections r = true
  · rw [if_pos hct, if_pos hct]
    dsimp only
    split <;> rfl
  · rw [if_neg hct, if_neg hct]
    split <;> rfl

theorem evictOld_websocket_sessions (c : State) (r : String) (ows : Nat) :
    (evictOld c r ows).websocket_sessions =
      if PyDict.contains c.websocket_sessions ows then
        PyDict.erase c.websocket_sessions ows
      else c.websocket_sessions := by
  unfold evictOld
  dsimp only
  by_cases hct : PyDict.contains c.connections r = true
  · rw [if_pos hct]
    dsimp only
    split <;> rfl
  · rw [if_neg hct]
    split <;> rfl

theorem nonempty_handle_reconnection {c : State} (h : NonemptyConns c)
    (r : String) (w : Nat) (s : String) :
    NonemptyConns (handle_reconnection c r w s) := by
  intro p hp
  rw [handle_reconnection_eq] at hp
  rcases mem_add_connection _ r w (some s) hp with ⟨_, hne⟩ | ⟨hk, hm⟩
  · exact hne
  · -- the entry comes from the intermediate state; trace it back to `c`
    cases hfind : c.websocket_sessions.find? (fun p => decide (p.2 = s)) with
    | none =>
      rw [hfind] at hm
      exact h p hm
    | some p0 =>
      rw [hfind] at hm
      dsimp only at hm
      rw [evictOld_connections] at hm
      split at hm
      · rcases PyDict.mem_insert hm with he | hm'
        · exact absurd (by rw [he]) hk
        · exact h p hm'
      · exact h p hm

theorem cleanupSessionStep_connections (c : State) (ws : Nat) :
    (cleanupSessionStep c ws).connections = c.connections := by
  unfold cleanupSessionStep
  cases PyDict.lookup c.websocket_sessions ws with
  | none => rfl
  | some sid =>
    dsimp only
    split <;> rfl

theorem cleanup_fold_connections (l : List Nat) (c : State) :
    (l.foldl cleanupSessionStep c).connections = c.connections := by
  induction l generalizing c with
  | nil => rfl
  | cons ws t ih =>
    rw [List.foldl_cons, ih, cleanupSessionStep_connections]

theorem nonempty_cleanup_room_connections {c : State} (h : NonemptyConns c)
    (r : String) : NonemptyConns (cleanup_room_connections c r) := by
  unfold cleanup_room_connections
  dsimp only
  have hc1 : NonemptyConns
      ((((PyDict.lookup c.connections r).getD ∅).sort (· ≤ ·)).foldl
        cleanupSessionStep c) := by
    intro p hp
    rw [cleanup_fold_connections] at hp
    exact h p hp
  split
  · intro p hp
    exact hc1 p (PyDict.mem_of_mem_erase hp)
  · exact hc1

theorem nonempty_applyOp {c : State} (h : NonemptyConns c) (op : Op) :
    NonemptyConns (applyOp c op) := by
  cases op with
  | add r w s => exact nonempty_add_connection h r w s
  | remove r w => exact nonempty_remove_connection h r w
  | reconnect r w s => exact nonempty_handle_reconnection h r w s
  | cleanup r => exact nonempty_cleanup_room_connections h r

theorem nonempty_runFrom {c : State} (h : NonemptyConns c)
    (ops : List Op) : NonemptyConns (runFrom c ops) := by
  induction ops generalizing c with
  | nil => exact h
  | cons op t ih => exact ih (nonempty_applyOp h op)

theorem has_connections_iff (c : State) (r : String) :
    has_connections c r = true ↔ get_connections c r ≠ ∅ := by
  unfold has_connections get_connections PyDict.contains
  cases hl : PyDict.lookup c.connections r <;> simp [hl]

/-! The per-session uniqueness analysis for C1. -/

/-- Per-call precondition of the amended C1: `add_connection` is not
handed a session id that is already bound to a different websocket. -/
def okOp (c : State) : Op → Bool
  | .add _ w sid =>
      match sid with
      | some s =>
          s.isEmpty ||
            c.websocket_sessions.all (fun p => !(p.2 == s) || (p.1 == w))
      | none => true
  | _ => true

def GoodSeq : State → List Op → Bool
  | _, [] => true
  | c, op :: ops => okOp c op && GoodSeq (applyOp c op) ops

/-- Each session id is bound to at most one websocket (and the
`websocket_sessions` dict has well-formed, duplicate-free keys). -/
def SessionsOK (c : State) : Prop :=
  (c.websocket_sessions.map Prod.fst).Nodup ∧
  ∀ s, (c.websocket_sessions.filter (fun p => decide (p.2 = s))).length ≤ 1

theorem add_connection_websocket_sessions (c : State) (r : String)
    (w : Nat) (s : Option String) :
    (add_connection c r w s).websocket_sessions =
      if truthyStr s then PyDict.insert c.websocket_sessions w (s.getD "")
      else c.websocket_sessions := by
  unfold add_connection
  split <;> split <;> rfl

theorem remove_connection_websocket_sessions (c : State) (r : String)
    (w : Nat) :
    ((remove_connection c r w).1).websocket_sessions =
      match PyDict.lookup c.websocket_sessions w with
      | some _ => PyDict.erase c.websocket_sessions w
      | none => c.websocket_sessions := by
  unfold remove_connection
  dsimp only
  by_cases hct : PyDict.contains c.connections r = true
  · by_cases he : ((PyDict.lookup c.connections r).getD ∅).erase w = ∅
    · rw [if_pos hct, if_pos he]
      dsimp only
      split
      · split <;> rfl
      · rfl
    · rw [if_pos hct, if_neg he]
      dsimp only
      split
      · split <;> rfl
      · rfl
  · rw [if_neg hct]
    split
    · split <;> rfl
    · rfl

theorem sessionsOK_initial : SessionsOK initial := by
  constructor
  · exact List.nodup_nil
  · intro s
    simp [initial]

theorem sessionsOK_add_of {c : State} (hok : SessionsOK c)
    (r : String) (w : Nat) (s : String)
    (hgood : ∀ p ∈ c.websocket_sessions, p.2 = s → p.1 = w) :
    SessionsOK (add_connection c r w (some s)) := by
  rcases hok with ⟨hk, hle⟩
  constructor
  · rw [add_connection_websocket_sessions]
    split
    · exact PyDict.keys_nodup_insert hk
    · exact hk
  · intro t
    rw [add_connection_websocket_sessions]
    split
    · exact PyDict.filter_snd_insert_le hk hgood hle t
    · exact hle t

theorem sessionsOK_add {c : State} (hok : SessionsOK c)
    (r : String) (w : Nat) (sid : Option String)
    (hop : okOp c (.add r w sid) = true) :
    SessionsOK (add_connection c r w sid) := by
  cases sid with
  | none =>
    rcases hok with ⟨hk, hle⟩
    have hnt : ¬ (truthyStr none = true) := by simp [truthyStr]
    have hws : (add_connection c r w none).websocket_sessions
        = c.websocket_sessions := by
      rw [add_connection_websocket_sessions, if_neg hnt]
    exact ⟨by rw [hws]; exact hk, fun t => by rw [hws]; exact hle t⟩
  | some s =>
    by_cases hs : s.isEmpty
    · rcases hok with ⟨hk, hle⟩
      have hnt : ¬ (truthyStr (some s) = true) := by
        simp [truthyStr, hs]
      have hws : (add_connection c r w (some s)).websocket_sessions
          = c.websocket_sessions := by
        rw [add_connection_websocket_sessions, if_neg hnt]
      exact ⟨by rw [hws]; exact hk, fun t => by rw [hws]; exact hle t⟩
    · apply sessionsOK_add_of hok
      intro p hp hps
      simp only [okOp, hs, Bool.false_or, List.all_eq_true] at hop
      have := hop p hp
      simp only [hps, beq_self_eq_true, Bool.not_true, Bool.false_or,
        beq_iff_eq] at this
      exact this

theorem sessionsOK_remove {c : State} (hok : SessionsOK c)
    (r : String) (w : Nat) :
    SessionsOK ((remove_connection c r w).1) := by
  rcases hok with ⟨hk, hle⟩
  constructor
  · rw [remove_connection_websocket_sessions]
    cases PyDict.lookup c.websocket_sessions w with
    | some sid => exact PyDict.keys_nodup_erase hk
    | none => exact hk
  · intro t
    rw [remove_connection_websocket_sessions]
    cases PyDict.lookup c.websocket_sessions w with
    | some sid => exact le_trans PyDict.filter_snd_erase_le (hle t)
    | none => exact hle t

theorem eq_of_mem_of_length_le_one {γ : Type} {l : List γ} {a b : γ}
    (h : l.length ≤ 1) (ha : a ∈ l) (hb : b ∈ l) : a = b := by
  cases l with
  | nil => cases ha
  | cons x t =>
    cases t with
    | nil =>
      rw [List.mem_singleton] at ha hb
      rw [ha, hb]
    | cons y u => simp at h

theorem sessionsOK_evictOld {c : State} (hok : SessionsOK c)
    (r : String) (ows : Nat) : SessionsOK (evictOld c r ows) := by
  rcases hok with ⟨hk, hle⟩
  constructor
  · rw [evictOld_websocket_sessions]
    split
    · exact PyDict.keys_nodup_erase hk
    · exact hk
  · intro t
    rw [evictOld_websocket_sessions]
    split
    · exact le_trans PyDict.filter_snd_erase_le (hle t)
    · exact hle t

theorem sessionsOK_reconnect {c : State} (hok : SessionsOK c)
    (r : String) (w : Nat) (s : String) :
    SessionsOK (handle_reconnection c r w s) := by
  rw [handle_reconnection_eq]
  cases hfind : c.websocket_sessions.find? (fun p => decide (p.2 = s)) with
  | none =>
    apply sessionsOK_add_of hok
    intro p hp hps
    have := List.find?_eq_none.mp hfind p hp
    simp [hps] at this
  | some p0 =>
    have hp0s : p0.2 = s := by simpa using List.find?_some hfind
    have hp0m : p0 ∈ c.websocket_sessions := List.mem_of_find?_eq_some hfind
    have hp0c : PyDict.contains c.websocket_sessions p0.1 = true := by
      unfold PyDict.contains PyDict.lookup
      cases hf : c.websocket_sessions.find?
          (fun q => decide (q.1 = p0.1)) with
      | none =>
        have := List.find?_eq_none.mp hf p0 hp0m
        simp at this
      | some q => simp [hf]
    have hews : (evictOld c r p0.1).websocket_sessions
        = PyDict.erase c.websocket_sessions p0.1 := by
      rw [evictOld_websocket_sessions, if_pos hp0c]
    apply sessionsOK_add_of (sessionsOK_evictOld hok r p0.1)
    intro q hq hqs
    rw [hews] at hq
    have hqmem : q ∈ c.websocket_sessions := PyDict.mem_of_mem_erase hq
    have hqkey : ¬ q.1 = p0.1 := by
      have := List.of_mem_filter hq
      simpa using this
    exfalso
    apply hqkey
    have hqf : q ∈ c.websocket_sessions.filter
        (fun p => decide (p.2 = s)) :=
      List.mem_filter.mpr ⟨hqmem, by simp [hqs]⟩
    have hp0f : p0 ∈ c.websocket_sessions.filter
        (fun p => decide (p.2 = s)) :=
      List.mem_filter.mpr ⟨hp0m, by simp [hp0s]⟩
    rw [eq_of_mem_of_length_le_one (hok.2 s) hqf hp0f]

theorem cleanupSessionStep_sessionsOK {c : State} (hok : SessionsOK c)
    (ws : Nat) : SessionsOK (cleanupSessionStep c ws) := by
  unfold cleanupSessionStep
  cases PyDict.lookup c.websocket_sessions ws with
  | none => exact hok
  | some sid =>
    rcases hok with ⟨hk, hle⟩
    dsimp only
    split <;>
      exact ⟨PyDict.keys_nodup_erase hk,
        fun t => le_trans PyDict.filter_snd_erase_le (hle t)⟩

theorem sessionsOK_cleanup {c : State} (hok : SessionsOK c)
    (r : String) : SessionsOK (cleanup_room_connections c r) := by
  unfold cleanup_room_connections
  dsimp only
  have hfold : ∀ (l : List Nat) (st : State), SessionsOK st →
      SessionsOK (l.foldl cleanupSessionStep st) := by
    intro l
    induction l with
    | nil => exact fun st h => h
    | cons x t ih =>
      intro st h
      exact ih _ (cleanupSessionStep_sessionsOK h x)
  have h1 := hfold ((((PyDict.lookup c.connections r).getD ∅)).sort
    (· ≤ ·)) c hok
  split
  · exact ⟨h1.1, h1.2⟩
  · exact h1

theorem sessionsOK_applyOp {c : State} (hok : SessionsOK c) {op : Op}
    (hop : okOp c op = true) : SessionsOK (applyOp c op) := by
  cases op with
  | add r w sid => exact sessionsOK_add hok r w sid hop
  | remove r w => exact sessionsOK_remove hok r w
  | reconnect r w s => exact sessionsOK_reconnect hok r w s
  | cleanup r => exact sessionsOK_cleanup hok r

theorem sessionsOK_runFrom {c : State} (hok : SessionsOK c)
    {ops : List Op} (hg : GoodSeq c ops = true) :
    SessionsOK (runFrom c ops) := by
  induction ops generalizing c with
  | nil => exact hok
  | cons op t ih =>
    rw [GoodSeq, Bool.and_eq_true] at hg
    exact ih (sessionsOK_applyOp hok hg.1) hg.2

theorem card_sessionConnections_le_one {c : State} (hok : SessionsOK c)
    (r s : String) : (sessionConnections c r s).card ≤ 1 := by
  classical
  have hsub : ∀ w ∈ sessionConnections c r s,
      ((w, s) : Nat × String) ∈
        (c.websocket_sessions.filter
          (fun p => decide (p.2 = s))).toFinset := by
    intro w hw
    rw [List.mem_toFinset, List.mem_filter]
    have hw2 : PyDict.lookup c.websocket_sessions w = some s :=
      (Finset.mem_filter.mp hw).2
    exact ⟨PyDict.mem_of_lookup_eq_some hw2, by simp⟩
  have hinj : Set.InjOn (fun w => ((w, s) : Nat × String))
      (sessionConnections c r s : Set Nat) := by
    intro a _ b _ hab
    simpa using hab
  calc (sessionConnections c r s).card
      ≤ ((c.websocket_sessions.filter
          (fun p => decide (p.2 = s))).toFinset).card :=
        Finset.card_le_card_of_injOn _ hsub hinj
    _ ≤ (c.websocket_sessions.filter
          (fun p => decide (p.2 = s))).length :=
        List.toFinset_card_le _
    _ ≤ 1 := hok.2 s

end ConnectionManager

/-- C1 counterexample: two direct `add_connection` calls with the same
session id but different websockets leave two connections of room `"r"`
both mapped to session `"s"`; a subsequent `handle_reconnection` evicts
only the first-found prior binding, still leaving two. -/
theorem connection_per_session_counterexample :
    (ConnectionManager.sessionConnections
      (ConnectionManager.run
        [.add "r" 1 (some "s"), .add "r" 2 (some "s")]) "r" "s").card
      = 2 ∧
    (ConnectionManager.sessionConnections
      (ConnectionManager.run
        [.add "r" 1 (some "s"), .add "r" 2 (some "s"),
         .reconnect "r" 3 "s"]) "r" "s").card = 2 := by
  constructor <;> decide

/-- C1 (amended): provided `add_connection` is never invoked with a
session id already bound to a different websocket, then after any
sequence of `add_connection`, `handle_reconnection` and
`remove_connection` calls, `get_connections(room)` holds at most one
websocket mapped to any given session id (in particular
`handle_reconnection` evicts the unique prior connection bound to the
session before attaching the new one). -/
theorem at_most_one_connection_per_session (ops : List ConnectionManager.Op)
    (hg : ConnectionManager.GoodSeq ConnectionManager.initial ops = true)
    (room_id session_id : String) :
    (ConnectionManager.sessionConnections (ConnectionManager.run ops)
      room_id session_id).card ≤ 1 :=
  ConnectionManager.card_sessionConnections_le_one
    (ConnectionManager.sessionsOK_runFrom
      ConnectionManager.sessionsOK_initial hg) room_id session_id

/-- Witness for the amended C1 at a concrete call sequence containing a
reconnection. -/
theorem at_most_one_connection_per_session_witness :
    ConnectionManager.GoodSeq ConnectionManager.initial
        [.add "r" 1 (some "s"), .reconnect "r" 2 "s"] = true ∧
    (ConnectionManager.sessionConnections
      (ConnectionManager.run [.add "r" 1 (some "s"), .reconnect "r" 2 "s"])
      "r" "s").card ≤ 1 :=
  ⟨by decide,
    at_most_one_connection_per_session
      [.add "r" 1 (some "s"), .reconnect "r" 2 "s"] (by decide) "r" "s"⟩

/-! ### GameService._validate_session_id — `src/app/services/game_service.py`

The validator checks each hyphen-separated group with Python's
`int(part, 16)`.  That parser is modelled here over the ASCII fragment:
it strips surrounding whitespace, allows one leading sign, an optional
`0x`/`0X` prefix (with one underscore allowed right after it), and
hexadecimal digits separated by single underscores. -/

namespace GameService

def isHexDigit (c : Char) : Bool :=
  c.isDigit || ('a' ≤ c && c ≤ 'f') || ('A' ≤ c && c ≤ 'F')

/-- ASCII whitespace stripped by Python's `int`. -/
def isPySpace (c : Char) : Bool :=
  c = ' ' || c = '\t' || c = '\n' || c = '\x0b' || c = '\x0c' || c = '\r'

def stripPy (l : List Char) : List Char :=
  ((l.dropWhile isPySpace).reverse.dropWhile isPySpace).reverse

def dropSign (l : List Char) : List Char :=
  match l with
  | c :: rest => if c = '+' ∨ c = '-' then rest else l
  | [] => l

/-- Continuation of a digit run: digits separated by single
underscores, not ending in an underscore. -/
def hexTail : List Char → Bool
  | [] => true
  | c :: rest =>
      if c = '_' then
        match rest with
        | c2 :: rest2 => isHexDigit c2 && hexTail rest2
        | [] => false
      else isHexDigit c && hexTail rest

/-- A non-empty underscore-separated run of hex digits. -/
def hexDigitsOk : List Char → Bool
  | [] => false
  | c :: rest => isHexDigit c && hexTail rest

/-- The part after whitespace and sign: optional `0x`/`0X` prefix (an
underscore may follow it), then the digit run. -/
def pyIntBody (l : List Char) : Bool :=
  match l with
  | c0 :: c :: rest =>
      if c0 = '0' ∧ (c = 'x' ∨ c = 'X') then
        match rest with
        | c2 :: rest2 => if c2 = '_' then hexDigitsOk rest2
                         else hexDigitsOk rest
        | [] => hexDigitsOk rest
      else hexDigitsOk l
  | _ => hexDigitsOk l

/-- `int(part, 16)` succeeds (ASCII fragment). -/
def pyIntHexOk (l : List Char) : Bool :=
  pyIntBody (dropSign (stripPy l))

/-- Python `str.split(sep)` for a one-character separator: keeps empty
pieces, and `"".split(sep) == ['']`. -/
def pySplit (sep : Char) : List Char → List (List Char)
  | [] => [[]]
  | c :: rest =>
      match pySplit sep rest with
      | [] => [[c]]
      | h :: t => if c = sep then [] :: h :: t else (c :: h) :: t

/-- `GameService._validate_session_id` (`not session_id` is emptiness;
`isinstance` is enforced by the type). -/
def validate_session_id (session_id : String) : Bool :=
  if session_id.length = 0 then false
  else if session_id.length ≠ 36 then false
  else
    let parts := pySplit '-' session_id.toList
    if parts.length ≠ 5 then false
    else if (parts.getD 0 []).length ≠ 8 ∨ (parts.getD 1 []).length ≠ 4
        ∨ (parts.getD 2 []).length ≠ 4 ∨ (parts.getD 3 []).length ≠ 4
        ∨ (parts.getD 4 []).length ≠ 12 then false
    else parts.all pyIntHexOk

/-- The canonical token format the claim describes: exactly 36
characters, five hyphen-separated groups of lengths 8, 4, 4, 4 and 12,
every group character a hexadecimal digit. -/
def isCanonicalSessionId (s : String) : Bool :=
  let cs := s.toList
  decide (cs.length = 36) &&
  (cs.take 8).all isHexDigit && decide (cs.getD 8 ' ' = '-') &&
  ((cs.drop 9).take 4).all isHexDigit && decide (cs.getD 13 ' ' = '-') &&
  ((cs.drop 14).take 4).all isHexDigit && decide (cs.getD 18 ' ' = '-') &&
  ((cs.drop 19).take 4).all isHexDigit && decide (cs.getD 23 ' ' = '-') &&
  (cs.drop 24).all isHexDigit

end GameService

/-- C8 counterexample: the validator accepts a 36-character string whose
first group starts with `'+'` (Python's `int(part, 16)` tolerates a
sign), which is not of the canonical all-hex format. -/
theorem session_id_validator_counterexample :
    GameService.validate_session_id
        "+1234567-abcd-abcd-abcd-abcdabcdabcd" = true ∧
    GameService.isCanonicalSessionId
        "+1234567-abcd-abcd-abcd-abcdabcdabcd" = false := by
  constructor <;> decide

namespace GameService

theorem hex_not_space {c : Char} (h : isHexDigit c = true) :
    isPySpace c = false := by
  by_contra hs
  rw [Bool.not_eq_false] at hs
  unfold isPySpace at hs
  simp only [Bool.or_eq_true, decide_eq_true_eq] at hs
  rcases hs with ((((hs | hs) | hs) | hs) | hs) | hs <;>
    (subst hs; exact absurd h (by decide))

theorem hex_ne_underscore {c : Char} (h : isHexDigit c = true) :
    ¬ c = '_' := by
  intro he
  subst he
  exact absurd h (by decide)

theorem hexTail_of_all {l : List Char} (h : l.all isHexDigit = true) :
    hexTail l = true := by
  induction l with
  | nil => rfl
  | cons c rest ih =>
    rw [List.all_cons, Bool.and_eq_true] at h
    unfold hexTail
    rw [if_neg (hex_ne_underscore h.1), h.1, ih h.2]
    rfl

theorem hexDigitsOk_of_all {l : List Char} (hne : l ≠ [])
    (h : l.all isHexDigit = true) : hexDigitsOk l = true := by
  cases l with
  | nil => exact absurd rfl hne
  | cons c rest =>
    rw [List.all_cons, Bool.and_eq_true] at h
    unfold hexDigitsOk
    dsimp only
    rw [h.1, hexTail_of_all h.2]
    rfl

theorem stripPy_of_all {l : List Char} (h : l.all isHexDigit = true) :
    stripPy l = l := by
  have hdrop : ∀ (m : List Char), m.all isHexDigit = true →
      m.dropWhile isPySpace = m := by
    intro m hm
    cases m with
    | nil => rfl
    | cons c rest =>
      rw [List.all_cons, Bool.and_eq_true] at hm
      rw [List.dropWhile_cons, hex_not_space hm.1]
      rfl
  unfold stripPy
  rw [hdrop l h, hdrop l.reverse (by rwa [List.all_reverse]),
    List.reverse_reverse]

theorem dropSign_of_all {l : List Char} (h : l.all isHexDigit = true) :
    dropSign l = l := by
  cases l with
  | nil => rfl
  | cons c rest =>
    rw [List.all_cons, Bool.and_eq_true] at h
    unfold dropSign
    dsimp only
    rw [if_neg]
    rintro (hc | hc) <;> (subst hc; exact absurd h.1 (by decide))

theorem pyIntBody_of_all {l : List Char} (hne : l ≠ [])
    (h : l.all isHexDigit = true) : pyIntBody l = true := by
  cases l with
  | nil => exact absurd rfl hne
  | cons c0 rest0 =>
    cases rest0 with
    | nil => exact hexDigitsOk_of_all (by simp) h
    | cons c rest =>
      have hc : isHexDigit c = true := by
        rw [List.all_cons, List.all_cons] at h
        simp only [Bool.and_eq_true] at h
        exact h.2.1
      unfold pyIntBody
      dsimp only
      rw [if_neg]
      · exact hexDigitsOk_of_all (by simp) h
      · rintro ⟨-, hx | hx⟩ <;> (subst hx; exact absurd hc (by decide))

theorem pyIntHexOk_of_all {l : List Char} (hne : l ≠ [])
    (h : l.all isHexDigit = true) : pyIntHexOk l = true := by
  unfold pyIntHexOk
  rw [stripPy_of_all h, dropSign_of_all h]
  exact pyIntBody_of_all hne h

theorem pySplit_cons (sep c : Char) (rest : List Char) :
    pySplit sep (c :: rest) =
      match pySplit sep rest with
      | [] => [[c]]
      | h :: t => if c = sep then [] :: h :: t else (c :: h) :: t := rfl

theorem pySplit_ne_nil (sep : Char) (l : List Char) :
    pySplit sep l ≠ [] := by
  cases l with
  | nil => simp [pySplit]
  | cons c rest =>
    rw [pySplit_cons]
    cases pySplit sep rest with
    | nil => simp
    | cons h t =>
      dsimp only
      split <;> simp

theorem pySplit_no_sep {sep : Char} {l : List Char}
    (h : ∀ c ∈ l, ¬ c = sep) : pySplit sep l = [l] := by
  induction l with
  | nil => rfl
  | cons c rest ih =>
    rw [pySplit_cons, ih (fun x hx => h x (List.mem_cons_of_mem c hx))]
    dsimp only
    rw [if_neg (h c (List.mem_cons_self c rest))]

theorem pySplit_append {sep : Char} {a : List Char} (rest : List Char)
    (ha : ∀ c ∈ a, ¬ c = sep) :
    pySplit sep (a ++ sep :: rest) = a :: pySplit sep rest := by
  induction a with
  | nil =>
    simp only [List.nil_append]
    rw [pySplit_cons]
    cases hr : pySplit sep rest with
    | nil => exact absurd hr (pySplit_ne_nil sep rest)
    | cons h t =>
      dsimp only
      rw [if_pos rfl]
  | cons c a' ih =>
    have hc : ¬ c = sep := ha c (List.mem_cons_self c a')
    simp only [List.cons_append]
    rw [pySplit_cons, ih (fun x hx => ha x (List.mem_cons_of_mem c hx))]
    dsimp only
    rw [if_neg hc]

theorem hex_ne_dash {c : Char} (h : isHexDigit c = true) : ¬ c = '-' := by
  intro he
  subst he
  exact absurd h (by decide)

theorem all_not_dash {l : List Char} (h : l.all isHexDigit = true) :
    ∀ c ∈ l, ¬ c = '-' := by
  intro c hc
  exact hex_ne_dash (by
    rw [List.all_eq_true] at h
    exact h c hc)

theorem exists_five {γ : Type} {l : List γ} (h : l.length = 5) :
    ∃ a b c d e, l = [a, b, c, d, e] := by
  cases l with
  | nil => simp at h
  | cons a l1 =>
  cases l1 with
  | nil => simp at h
  | cons b l2 =>
  cases l2 with
  | nil => simp at h
  | cons c l3 =>
  cases l3 with
  | nil => simp at h
  | cons d l4 =>
  cases l4 with
  | nil => simp at h
  | cons e l5 =>
  cases l5 with
  | nil => exact ⟨a, b, c, d, e, rfl⟩
  | cons f l6 => simp [List.length_cons] at h

end GameService

namespace GameService

theorem validate_session_id_iff (s : String) :
    validate_session_id s = true ↔
      (s.length = 36 ∧ ∃ p0 p1 p2 p3 p4 : List Char,
        pySplit '-' s.toList = [p0, p1, p2, p3, p4] ∧
        p0.length = 8 ∧ p1.length = 4 ∧ p2.length = 4 ∧
        p3.length = 4 ∧ p4.length = 12 ∧
        pyIntHexOk p0 = true ∧ pyIntHexOk p1 = true ∧
        pyIntHexOk p2 = true ∧ pyIntHexOk p3 = true ∧
        pyIntHexOk p4 = true) := by
  unfold validate_session_id
  constructor
  · intro h
    dsimp only at h
    by_cases h0 : s.length = 0
    · rw [if_pos h0] at h
      simp at h
    rw [if_neg h0] at h
    by_cases h36 : s.length ≠ 36
    · rw [if_pos h36] at h
      simp at h
    rw [if_neg h36] at h
    by_cases h5 : (pySplit '-' s.toList).length ≠ 5
    · rw [if_pos h5] at h
      simp at h
    rw [if_neg h5] at h
    obtain ⟨p0, p1, p2, p3, p4, hps⟩ := exists_five (not_not.mp h5)
    rw [hps] at h
    by_cases hlen : ([p0, p1, p2, p3, p4].getD 0 []).length ≠ 8
        ∨ ([p0, p1, p2, p3, p4].getD 1 []).length ≠ 4
        ∨ ([p0, p1, p2, p3, p4].getD 2 []).length ≠ 4
        ∨ ([p0, p1, p2, p3, p4].getD 3 []).length ≠ 4
        ∨ ([p0, p1, p2, p3, p4].getD 4 []).length ≠ 12
    · rw [if_pos hlen] at h
      simp at h
    rw [if_neg hlen] at h
    simp only [List.getD, List.getElem?_cons_zero, List.getElem?_cons_succ,
      Option.getD_some, not_or, not_not] at hlen
    simp only [List.all_cons, List.all_nil, Bool.and_eq_true,
      Bool.and_true] at h
    exact ⟨not_not.mp h36, p0, p1, p2, p3, p4, hps, hlen.1, hlen.2.1,
      hlen.2.2.1, hlen.2.2.2.1, hlen.2.2.2.2, h.1, h.2.1, h.2.2.1,
      h.2.2.2.1, h.2.2.2.2⟩
  · rintro ⟨h36, p0, p1, p2, p3, p4, hps, l0, l1, l2, l3, l4,
      x0, x1, x2, x3, x4⟩
    dsimp only
    rw [if_neg (by omega : ¬ s.length = 0),
      if_neg (by omega : ¬ s.length ≠ 36), hps]
    rw [if_neg (by simp), if_neg]
    · simp [List.all_cons, x0, x1, x2, x3, x4]
    · simp only [List.getD, List.getElem?_cons_zero,
        List.getElem?_cons_succ, Option.getD_some, not_or, not_not]
      exact ⟨l0, l1, l2, l3, l4⟩

theorem canonical_split {s : String}
    (h : isCanonicalSessionId s = true) :
    s.length = 36 ∧
    pySplit '-' s.toList =
      [s.toList.take 8, (s.toList.drop 9).take 4,
       (s.toList.drop 14).take 4, (s.toList.drop 19).take 4,
       s.toList.drop 24] ∧
    (s.toList.take 8).all isHexDigit = true ∧
    ((s.toList.drop 9).take 4).all isHexDigit = true ∧
    ((s.toList.drop 14).take 4).all isHexDigit = true ∧
    ((s.toList.drop 19).take 4).all isHexDigit = true ∧
    (s.toList.drop 24).all isHexDigit = true := by
  unfold isCanonicalSessionId at h
  dsimp only at h
  simp only [Bool.and_eq_true, decide_eq_true_eq] at h
  obtain ⟨⟨⟨⟨⟨⟨⟨⟨hl, a0⟩, d8⟩, a1⟩, d13⟩, a2⟩, d18⟩, a3⟩, d23⟩ := h.1
  have a4 := h.2
  have hsl : s.length = s.toList.length := rfl
  have h8 : 8 < s.toList.length := by omega
  have h13 : 13 < s.toList.length := by omega
  have h18 : 18 < s.toList.length := by omega
  have h23 : 23 < s.toList.length := by omega
  have c8 : s.toList[8] = '-' := by
    rw [← List.getD_eq_getElem s.toList ' ' h8]
    exact d8
  have c13 : s.toList[13] = '-' := by
    rw [← List.getD_eq_getElem s.toList ' ' h13]
    exact d13
  have c18 : s.toList[18] = '-' := by
    rw [← List.getD_eq_getElem s.toList ' ' h18]
    exact d18
  have c23 : s.toList[23] = '-' := by
    rw [← List.getD_eq_getElem s.toList ' ' h23]
    exact d23
  have hdecomp : s.toList =
      s.toList.take 8 ++ '-' :: ((s.toList.drop 9).take 4 ++ '-' ::
        ((s.toList.drop 14).take 4 ++ '-' ::
          ((s.toList.drop 19).take 4 ++ '-' :: s.toList.drop 24))) := by
    conv_lhs => rw [← List.take_append_drop 8 s.toList]
    rw [List.drop_eq_getElem_cons h8, c8]
    conv_lhs => rw [← List.take_append_drop 4 (s.toList.drop 9)]
    rw [List.drop_drop, show 4 + 9 = 13 from rfl,
      List.drop_eq_getElem_cons h13, c13]
    conv_lhs => rw [← List.take_append_drop 4 (s.toList.drop 14)]
    rw [List.drop_drop, show 4 + 14 = 18 from rfl,
      List.drop_eq_getElem_cons h18, c18]
    conv_lhs => rw [← List.take_append_drop 4 (s.toList.drop 19)]
    rw [List.drop_drop, show 4 + 19 = 23 from rfl,
      List.drop_eq_getElem_cons h23, c23]
  refine ⟨by omega, ?_, a0, a1, a2, a3, a4⟩
  conv_lhs => rw [hdecomp]
  rw [pySplit_append _ (all_not_dash a0),
    pySplit_append _ (all_not_dash a1),
    pySplit_append _ (all_not_dash a2),
    pySplit_append _ (all_not_dash a3),
    pySplit_no_sep (all_not_dash a4)]

end GameService

/-- C8 (amended): the validator accepts every string of the canonical
format; in general it accepts exactly the 36-character strings that
split at hyphens into five groups of lengths 8, 4, 4, 4 and 12, each of
which Python's `int(part, 16)` accepts — a test that also tolerates a
leading sign, a `0x`/`0X` prefix, underscores between digits and
surrounding whitespace inside a group, so not every accepted string is
canonical. -/
theorem session_id_validator_spec (s : String) :
    (GameService.isCanonicalSessionId s = true →
      GameService.validate_session_id s = true) ∧
    (GameService.validate_session_id s = true ↔
      (s.length = 36 ∧ ∃ p0 p1 p2 p3 p4 : List Char,
        GameService.pySplit '-' s.toList = [p0, p1, p2, p3, p4] ∧
        p0.length = 8 ∧ p1.length = 4 ∧ p2.length = 4 ∧
        p3.length = 4 ∧ p4.length = 12 ∧
        GameService.pyIntHexOk p0 = true ∧
        GameService.pyIntHexOk p1 = true ∧
        GameService.pyIntHexOk p2 = true ∧
        GameService.pyIntHexOk p3 = true ∧
        GameService.pyIntHexOk p4 = true)) := by
  constructor
  · intro h
    obtain ⟨h36, hsplit, a0, a1, a2, a3, a4⟩ :=
      GameService.canonical_split h
    have hsl : s.length = s.toList.length := rfl
    apply (GameService.validate_session_id_iff s).mpr
    refine ⟨h36, _, _, _, _, _, hsplit, ?_, ?_, ?_, ?_, ?_,
      ?_, ?_, ?_, ?_, ?_⟩
    · simp [List.length_take]
      omega
    · simp [List.length_take]
      omega
    · simp [List.length_take]
      omega
    · simp [List.length_take]
      omega
    · simp [List.length_drop]
      omega
    · exact GameService.pyIntHexOk_of_all
        (by apply List.ne_nil_of_length_pos
            simp [List.length_take]
            omega) a0
    · exact GameService.pyIntHexOk_of_all
        (by apply List.ne_nil_of_length_pos
            simp [List.length_take]
            omega) a1
    · exact GameService.pyIntHexOk_of_all
        (by apply List.ne_nil_of_length_pos
            simp [List.length_take]
            omega) a2
    · exact GameService.pyIntHexOk_of_all
        (by apply List.ne_nil_of_length_pos
            simp [List.length_take]
            omega) a3
    · exact GameService.pyIntHexOk_of_all
        (by apply List.ne_nil_of_length_pos
            simp [List.length_drop]
            omega) a4
  · exact GameService.validate_session_id_iff s

/-- Witness for the amended C8 at a concrete canonical token. -/
theorem session_id_validator_spec_witness :
    GameService.validate_session_id
      "01234567-89ab-cdef-0123-456789abcdef" = true :=
  (session_id_validator_spec "01234567-89ab-cdef-0123-456789abcdef").1
    (by decide)


/-- C10: after any sequence of `add_connection`, `remove_connection`,
`handle_reconnection` and `cleanup_room_connections` calls, every room
id present as a key of `connections` maps to a non-empty set, and
`has_connections(room)` holds exactly when `get_connections(room)` is
non-empty. -/
theorem connection_manager_no_empty_sets
    (ops : List ConnectionManager.Op) (room_id : String) :
    (∀ p ∈ (ConnectionManager.run ops).connections,
        p.2 ≠ (∅ : Finset Nat)) ∧
    (ConnectionManager.has_connections (ConnectionManager.run ops) room_id
        = true ↔
      ConnectionManager.get_connections (ConnectionManager.run ops) room_id
        ≠ ∅) := by
  constructor
  · exact ConnectionManager.nonempty_runFrom (fun p hp => absurd hp
      (List.not_mem_nil p)) ops
  · exact ConnectionManager.has_connections_iff _ room_id

/-- Witness for C10 at a concrete call sequence. -/
theorem connection_manager_no_empty_sets_witness :
    ConnectionManager.get_connections
      (ConnectionManager.run [.add "r" 1 none]) "r" ≠ ∅ :=
  (connection_manager_no_empty_sets [.add "r" 1 none] "r").2.mp (by decide)

/-! ### SessionManager — `src/app/session_manager.py`

`str(uuid.uuid4())` is a random draw; the draw is an injected
parameter.  The cookie side effects of `create_session` and the
`player_data` payload dict are outside the embedded state. -/

namespace SessionManager

structure Session where
  created_at : Nat
  last_seen : Nat
  room_id : Option String
  is_active : Bool
  deriving DecidableEq

/-- `generate_session_id()`: returns the uuid draw unchanged — there is
no check against the stored sessions. -/
def generate_session_id (uuid : String) : String := uuid

/-- `create_session(...)`: stores the fresh session data under the
generated id and returns the id. -/
def create_session (sessions : List (String × Session)) (uuid : String)
    (now : Nat) : List (String × Session) × String :=
  let session_id := generate_session_id uuid
  (PyDict.insert sessions session_id
    { created_at := now, last_seen := now, room_id := none,
      is_active := true },
   session_id)

end SessionManager

/-- C9: the session-id generator is not collision-checked.  With a
store already holding the key `"x"` and the uuid draw returning `"x"`,
`create_session` returns an id that is already a key of the stored
sessions map, contradicting the claim; the collision-checked
`generate_unique_session_id` that `GameService.handle_join` and the
websocket handler invoke does not exist on `SessionManager` at all.
The creation and last-seen times are recorded as claimed. -/
theorem session_creation_not_collision_checked :
    PyDict.contains
        [("x", (⟨5, 5, none, true⟩ : SessionManager.Session))] "x"
      = true ∧
    (SessionManager.create_session
        [("x", ⟨5, 5, none, true⟩)] "x" 7).2 = "x" ∧
    PyDict.lookup
        (SessionManager.create_session
          [("x", ⟨5, 5, none, true⟩)] "x" 7).1 "x"
      = some ⟨7, 7, none, true⟩ := by
  refine ⟨by decide, rfl, by decide⟩

/-! ### EventBus — `src/app/events/event_bus.py`

Events carry a type tag (`type(event)` dispatch); a handler is an
identifier together with a behaviour that either returns or raises
(`Except`).  `publish` is modelled in the exception monad: an uncaught
exception in the fold would short-circuit it, and the `try/except`
around each handler call is the per-handler `match`.  Only the
synchronous path is modelled (an async handler's task is awaited with
`return_exceptions=True`, which isolates faults the same way). -/

namespace EventBus

structure GameEvent where
  ty : Nat
  deriving DecidableEq

structure Handler where
  id : Nat
  behavior : GameEvent → Except String Unit

structure Bus where
  handlers : List (Nat × List (Int × Handler))
  global_handlers : List (Int × Handler)
  handler_count : List (Nat × Nat)

def empty : Bus := ⟨[], [], []⟩

/-- Stable insertion for a sort by descending priority (equal
priorities keep their relative order, as Python's stable `sort` with
`reverse=True` does). -/
def insertByDesc (x : Int × Handler) :
    List (Int × Handler) → List (Int × Handler)
  | [] => [x]
  | y :: ys => if x.1 < y.1 then y :: insertByDesc x ys else x :: y :: ys

/-- `lst.sort(key=lambda x: x[0], reverse=True)`. -/
def pySortDesc : List (Int × Handler) → List (Int × Handler)
  | [] => []
  | x :: xs => insertByDesc x (pySortDesc xs)

/-- `subscribe(event_type, handler, priority=0)`. -/
def subscribe (b : Bus) (event_type : Nat) (handler : Handler)
    (priority : Int) : Bus :=
  let hs0 :=
    if PyDict.contains b.handlers event_type then b.handlers
    else PyDict.insert b.handlers event_type []
  let cnt0 :=
    if PyDict.contains b.handlers event_type then b.handler_count
    else PyDict.insert b.handler_count event_type 0
  let lst := (PyDict.lookup hs0 event_type).getD []
  { handlers := PyDict.insert hs0 event_type
      (pySortDesc (lst ++ [(priority, handler)])),
    global_handlers := b.global_handlers,
    handler_count := PyDict.insert cnt0 event_type
      ((PyDict.lookup cnt0 event_type).getD 0 + 1) }

/-- `subscribe_global(handler, priority=0)`. -/
def subscribe_global (b : Bus) (handler : Handler) (priority : Int) :
    Bus :=
  { b with global_handlers :=
      pySortDesc (b.global_handlers ++ [(priority, handler)]) }

/-- One `try: handler(event) ... except Exception: logger.error(...)`
step of the publish loop: the invoked handler's id is recorded, and an
exception from the handler is caught. -/
def tryCall (e : GameEvent) (invoked : List Nat) (ph : Int × Handler) :
    Except String (List Nat) :=
  match ph.2.behavior e with
  | .ok _ => .ok (invoked ++ [ph.2.id])
  | .error _ => .ok (invoked ++ [ph.2.id])

/-- `publish(event)`: global handlers plus the handlers of the event's
type, re-sorted by priority, each invoked under the per-handler
`try/except`; returns the ids invoked, in order. -/
def publish (b : Bus) (e : GameEvent) : Except String (List Nat) :=
  let handlers_to_run :=
    b.global_handlers ++ (PyDict.lookup b.handlers e.ty).getD []
  (pySortDesc handlers_to_run).foldlM (tryCall e) []

theorem insertByDesc_perm (x : Int × Handler)
    (l : List (Int × Handler)) : List.Perm (insertByDesc x l) (x :: l) := by
  induction l with
  | nil => exact List.Perm.refl _
  | cons y ys ih =>
    unfold insertByDesc
    split
    · exact ((ih.cons y).trans (List.Perm.swap x y ys))
    · exact List.Perm.refl _

theorem pySortDesc_perm (l : List (Int × Handler)) :
    List.Perm (pySortDesc l) l := by
  induction l with
  | nil => exact List.Perm.refl _
  | cons x xs ih =>
    exact (insertByDesc_perm x (pySortDesc xs)).trans (ih.cons x)

theorem foldlM_tryCall_ok (e : GameEvent) (l : List (Int × Handler))
    (acc : List Nat) :
    l.foldlM (tryCall e) acc
      = Except.ok (acc ++ l.map (fun ph => ph.2.id)) := by
  induction l generalizing acc with
  | nil => simp [List.foldlM]; rfl
  | cons ph t ih =>
    rw [List.foldlM_cons]
    have hstep : tryCall e acc ph = Except.ok (acc ++ [ph.2.id]) := by
      unfold tryCall
      cases ph.2.behavior e <;> rfl
    rw [hstep]
    show t.foldlM (tryCall e) (acc ++ [ph.2.id]) = _
    rw [ih]
    simp

end EventBus

/-- C7: `publish` invokes every matching handler (global and
type-specific, any priorities) and completes normally — the trace of
invoked handler ids is returned through `Except.ok`, never an error,
and contains every subscribed matching handler even when some handlers
raise. -/
theorem event_bus_fault_isolation (b : EventBus.Bus)
    (e : EventBus.GameEvent) :
    ∃ tr, EventBus.publish b e = Except.ok tr ∧
      ∀ ph : Int × EventBus.Handler,
        (ph ∈ b.global_handlers ∨
          ph ∈ (PyDict.lookup b.handlers e.ty).getD []) →
        ph.2.id ∈ tr := by
  refine ⟨(EventBus.pySortDesc (b.global_handlers ++
      (PyDict.lookup b.handlers e.ty).getD [])).map (fun ph => ph.2.id),
    ?_, ?_⟩
  · unfold EventBus.publish
    rw [EventBus.foldlM_tryCall_ok]
    rfl
  · intro ph hm
    apply List.mem_map_of_mem
    apply (EventBus.pySortDesc_perm _).mem_iff.mpr
    rw [List.mem_append]
    exact hm

/-- Witness for C7: a throwing handler subscribed at the highest
priority does not stop a counting handler at the lowest priority from
being invoked, and the publish call completes. -/
theorem event_bus_fault_isolation_witness :
    ∃ tr, EventBus.publish
        (EventBus.subscribe
          (EventBus.subscribe EventBus.empty 1
            ⟨1, fun _ => Except.error "boom"⟩ 10)
          1 ⟨2, fun _ => Except.ok ()⟩ 0)
        ⟨1⟩ = Except.ok tr ∧ 2 ∈ tr := by
  obtain ⟨tr, h1, h2⟩ := event_bus_fault_isolation
    (EventBus.subscribe
      (EventBus.subscribe EventBus.empty 1
        ⟨1, fun _ => Except.error "boom"⟩ 10)
      1 ⟨2, fun _ => Except.ok ()⟩ 0) ⟨1⟩
  refine ⟨tr, h1, h2 (0, ⟨2, fun _ => Except.ok ()⟩) (Or.inr ?_)⟩
  show (0, (⟨2, fun _ => Except.ok ()⟩ : EventBus.Handler)) ∈
    [((10 : Int), (⟨1, fun _ => Except.error "boom"⟩ : EventBus.Handler)),
     (0, ⟨2, fun _ => Except.ok ()⟩)]
  exact List.mem_cons_of_mem _ (List.mem_singleton.mpr rfl)

/-! ### Shared data model — `src/app/models.py` -/

namespace Models

inductive GameStatus where
  | waiting
  | playing
  | ended
  deriving DecidableEq

/-- `models.Player` (dataclass). -/
structure Player where
  nickname : String
  player_number : Nat
  session_id : Option String
  last_seen : Option Nat
  is_connected : Bool
  color : Option Nat
  deriving DecidableEq

/-- `models.Room`, restricted to the fields the embedded operations
read or write (`game_state`, histories and undo bookkeeping are opaque
to the coordination layer). -/
structure Room where
  room_id : String
  game_type : Nat
  status : GameStatus
  players : List Player
  games_played : Nat
  last_winner : Option Nat
  deriving DecidableEq

/-- `Room.is_full`. -/
def Room.is_full (room : Room) : Bool := room.players.length ≥ 2

/-- First-match update with `break`/`return` semantics of the Python
`for` loops over `room.players`. -/
def updateFirst (pred : Player → Bool) (f : Player → Player) :
    List Player → List Player
  | [] => []
  | p :: rest =>
      if pred p then f p :: rest else p :: updateFirst pred f rest

end Models

/-! Python `int(s)` (base 10, ASCII fragment): strip whitespace, one
optional sign, decimal digits separated by single underscores. -/

namespace PyInt

def decTail : List Char → Bool
  | [] => true
  | c :: rest =>
      if c = '_' then
        match rest with
        | c2 :: rest2 => c2.isDigit && decTail rest2
        | [] => false
      else c.isDigit && decTail rest

def decDigitsOk : List Char → Bool
  | [] => false
  | c :: rest => c.isDigit && decTail rest

def decValue (l : List Char) : Nat :=
  l.foldl (fun acc c => if c = '_' then acc else acc * 10 + (c.toNat - 48)) 0

/-- `int(s)` as an `Option`: `none` models the `ValueError` branch. -/
def pyParseInt (s : String) : Option Int :=
  let cs := GameService.stripPy s.toList
  match cs with
  | c :: rest =>
      if c = '+' then
        if decDigitsOk rest then some (decValue rest) else none
      else if c = '-' then
        if decDigitsOk rest then some (-(decValue rest : Int)) else none
      else if decDigitsOk cs then some (decValue cs) else none
  | [] => none

end PyInt

/-! ### RoomManager (facade) — `src/app/room_manager.py`

`asyncio.Task` objects are modelled by numeric task ids: `create_task`
allocates `nextTask` and records which room the scheduled
`_cleanup_room_after_delay(room_id, delay)` call is for; `cancel()`
adds the id to `cancelled`.  A cancelled task's body never runs (the
`await asyncio.sleep` raises `CancelledError`), so the `fire`
transition of a cancelled task is a no-op. -/

namespace RoomManager

open Models

structure State where
  rooms : List (String × Room)
  connections : List (String × Finset Nat)
  room_timers : List (String × Nat)
  tasks : List (Nat × (String × Nat))
  cancelled : Finset Nat
  nextTask : Nat
  deriving DecidableEq

def initial : State := ⟨[], [], [], [], ∅, 0⟩

/-- `create_omok_room` (the uuid-derived room id is injected). -/
def create_omok_room (st : State) (rid : String) : State :=
  { st with rooms := (PyDict.insert st.rooms rid
      ⟨rid, 0, .waiting, [], 0, none⟩) }

/-- `add_connection(room_id, websocket)`. -/
def add_connection (st : State) (rid : String) (ws : Nat) : State :=
  let conns0 := if PyDict.contains st.connections rid then st.connections
                else PyDict.insert st.connections rid ∅
  { st with connections := (PyDict.insert conns0 rid
      (Insert.insert ws ((PyDict.lookup conns0 rid).getD ∅))) }

/-- `update_player_connection_status(room_id, player_number_or_session,
is_connected)`: tries the identifier as a player number first, then as
a session id; only the first match is updated. -/
def update_player_connection_status (st : State) (rid : String)
    (ident : String) (is_connected : Bool) (now : Nat) : State :=
  match PyDict.lookup st.rooms rid with
  | none => st
  | some room =>
    let bySession : Room :=
      { room with players := (updateFirst
          (fun p => p.session_id = some ident)
          (fun p => { p with is_connected := is_connected,
                             last_seen := some now }) room.players) }
    match PyInt.pyParseInt ident with
    | some n =>
        if room.players.any (fun p => (p.player_number : Int) = n) then
          { st with rooms := (PyDict.insert st.rooms rid
              { room with players := (updateFirst
                  (fun p => (p.player_number : Int) = n)
                  (fun p => { p with is_connected := is_connected,
                                     last_seen := some now })
                  room.players) }) }
        else { st with rooms := PyDict.insert st.rooms rid bySession }
    | none => { st with rooms := PyDict.insert st.rooms rid bySession }

/-- `assign_colors` (RoomManager's own version, deterministic). -/
def assign_colors (room : Room) : Room :=
  if room.players.length ≠ 2 then room
  else
    match room.players with
    | [p1, p2] =>
        if room.games_played = 0 ∨ room.last_winner = none then
          { room with players :=
              [{ p1 with color := some 1 }, { p2 with color := some 2 }] }
        else if room.last_winner = some 1 then
          { room with players :=
              [{ p1 with color := some 2 }, { p2 with color := some 1 }] }
        else
          { room with players :=
              [{ p1 with color := some 1 }, { p2 with color := some 2 }] }
    | _ => room

/-- `add_player_to_room(room_id, nickname, session_id)`. -/
def add_player_to_room (st : State) (rid nickname session_id : String)
    (now : Nat) : State × Option Player :=
  match PyDict.lookup st.rooms rid with
  | none => (st, none)
  | some room =>
    if room.is_full then (st, none)
    else
      match room.players.find? (fun p => p.session_id = some session_id) with
      | some _ =>
          let room1 := { room with players := (updateFirst
              (fun p => p.session_id = some session_id)
              (fun p => { p with is_connected := true,
                                 last_seen := some now }) room.players) }
          ({ st with rooms := PyDict.insert st.rooms rid room1 },
            room1.players.find? (fun p => p.session_id = some session_id))
      | none =>
          let player : Player :=
            ⟨nickname, room.players.length + 1, some session_id,
              some now, true, none⟩
          let room1 := { room with players := room.players ++ [player] }
          let room2 :=
            if room1.players.length = 2 then
              assign_colors { room1 with status := .playing }
            else room1
          ({ st with rooms := PyDict.insert st.rooms rid room2 },
            some player)

/-- `remove_connection(room_id, websocket, session_id=None)`. -/
def remove_connection (st : State) (rid : String) (ws : Nat)
    (session_id : Option String) (now : Nat) : State :=
  if PyDict.contains st.connections rid then
    let st1 := { st with connections := (PyDict.insert st.connections rid
        (((PyDict.lookup st.connections rid).getD ∅).erase ws)) }
    let st2 :=
      if truthyStr session_id then
        update_player_connection_status st1 rid (session_id.getD "")
          false now
      else st1
    match PyDict.lookup st2.rooms rid with
    | none => st2
    | some room =>
      if ((PyDict.lookup st2.connections rid).getD ∅) = ∅ then
        if (room.status = GameStatus.playing ∨
            room.status = GameStatus.waiting) ∧ room.players ≠ [] then
          let st3 :=
            if PyDict.contains st2.room_timers rid then
              { st2 with cancelled := (st2.cancelled ∪
                  ((PyDict.lookup st2.room_timers rid).map
                    (fun t => ({t} : Finset Nat))).getD ∅) }
            else st2
          { st3 with
            room_timers := PyDict.insert st3.room_timers rid st3.nextTask,
            tasks := PyDict.insert st3.tasks st3.nextTask (rid, 30),
            nextTask := st3.nextTask + 1 }
        else
          let st3 :=
            if PyDict.contains st2.rooms rid then
              { st2 with rooms := PyDict.erase st2.rooms rid }
            else st2
          { st3 with connections := PyDict.erase st3.connections rid }
      else st2
  else st

/-- The body of `_cleanup_room_after_delay(room_id, delay)` after the
`await asyncio.sleep(...)` — the fire-time re-check. -/
def cleanup_room_after_delay (st : State) (rid : String) : State :=
  match PyDict.lookup st.rooms rid with
  | none => st
  | some room =>
    let all_disconnected := room.players.all (fun p => !p.is_connected)
    let st1 :=
      if PyDict.contains st.connections rid ∧
          ((PyDict.lookup st.connections rid).getD ∅) = ∅ ∧
          all_disconnected = true then
        { st with rooms := PyDict.erase st.rooms rid,
                  connections := PyDict.erase st.connections rid }
      else st
    if PyDict.contains st1.room_timers rid then
      { st1 with room_timers := PyDict.erase st1.room_timers rid }
    else st1

/-- `handle_reconnection(room_id, session_id, websocket)`. -/
def handle_reconnection (st : State) (rid session_id : String) (ws : Nat)
    (now : Nat) : State :=
  let st1 :=
    if PyDict.contains st.room_timers rid then
      { st with
        cancelled := (st.cancelled ∪
          ((PyDict.lookup st.room_timers rid).map
            (fun t => ({t} : Finset Nat))).getD ∅),
        room_timers := PyDict.erase st.room_timers rid }
    else st
  let st2 := add_connection st1 rid ws
  update_player_connection_status st2 rid session_id true now

/-- The facade's call surface plus the firing of a scheduled cleanup
task. -/
inductive Op where
  | create (rid : String)
  | addPlayer (rid nickname sid : String) (now : Nat)
  | addConn (rid : String) (ws : Nat)
  | removeConn (rid : String) (ws : Nat) (sid : Option String) (now : Nat)
  | reconnect (rid sid : String) (ws : Nat) (now : Nat)
  | updateStatus (rid ident : String) (b : Bool) (now : Nat)
  | fire (tid : Nat)

def applyOp (st : State) : Op → State
  | .create rid => create_omok_room st rid
  | .addPlayer rid nickname sid now =>
      (add_player_to_room st rid nickname sid now).1
  | .addConn rid ws => add_connection st rid ws
  | .removeConn rid ws sid now => remove_connection st rid ws sid now
  | .reconnect rid sid ws now => handle_reconnection st rid sid ws now
  | .updateStatus rid ident b now =>
      update_player_connection_status st rid ident b now
  | .fire tid =>
      match PyDict.lookup st.tasks tid with
      | some rd =>
          if tid ∈ st.cancelled then st
          else cleanup_room_after_delay st rd.1
      | none => st

def runFrom (st : State) (ops : List Op) : State := ops.foldl applyOp st

def run (ops : List Op) : State := runFrom initial ops

end RoomManager

namespace RoomManager

open Models

/-- Rooms whose status can actually occur: no operation of the facade
ever assigns `GameStatus.ended`. -/
def StatusOK (st : State) : Prop :=
  ∀ p ∈ st.rooms, p.2.status ≠ GameStatus.ended

theorem updateFirst_length (pred : Player → Bool) (f : Player → Player)
    (ps : List Player) : (updateFirst pred f ps).length = ps.length := by
  induction ps with
  | nil => rfl
  | cons p rest ih =>
    unfold updateFirst
    split
    · rfl
    · simpa using ih

theorem updateFirst_session_connected {sid : String} {b : Bool}
    {now : Nat} {ps : List Player}
    (huniq : (ps.filter (fun p => p.session_id = some sid)).length ≤ 1) :
    ∀ p ∈ updateFirst (fun p => p.session_id = some sid)
        (fun p => { p with is_connected := b, last_seen := some now }) ps,
      p.session_id = some sid → p.is_connected = b := by
  induction ps with
  | nil => intro p hp; cases hp
  | cons q rest ih =>
    by_cases hq : q.session_id = some sid
    · have hfilter : (rest.filter
          (fun p => p.session_id = some sid)).length = 0 := by
        rw [List.filter_cons_of_pos (by simp [hq])] at huniq
        simp only [List.length_cons] at huniq
        omega
      have hnone : ∀ p ∈ rest, ¬ p.session_id = some sid := by
        intro p hp hps
        have : p ∈ rest.filter (fun p => p.session_id = some sid) :=
          List.mem_filter.mpr ⟨hp, by simp [hps]⟩
        rw [List.length_eq_zero] at hfilter
        rw [hfilter] at this
        cases this
      intro p hp hps
      unfold updateFirst at hp
      rw [if_pos (by simp [hq])] at hp
      rcases List.mem_cons.mp hp with he | hm
      · rw [he]
      · exact absurd hps (hnone p hm)
    · intro p hp hps
      unfold updateFirst at hp
      rw [if_neg (by simp [hq])] at hp
      rcases List.mem_cons.mp hp with he | hm
      · rw [he] at hps; exact absurd hps hq
      · have huniq' : (rest.filter
            (fun p => p.session_id = some sid)).length ≤ 1 := by
          rw [List.filter_cons_of_neg (by simp [hq])] at huniq
          exact huniq
        exact ih huniq' p hm hps

theorem update_status_eq (st : State) (rid ident : String) (b : Bool)
    (now : Nat) : ∃ R,
    update_player_connection_status st rid ident b now
      = { st with rooms := R } := by
  unfold update_player_connection_status
  cases PyDict.lookup st.rooms rid with
  | none => exact ⟨st.rooms, rfl⟩
  | some room =>
    dsimp only
    cases PyInt.pyParseInt ident with
    | none => exact ⟨_, rfl⟩
    | some n =>
      dsimp only
      split
      · exact ⟨_, rfl⟩
      · exact ⟨_, rfl⟩

theorem update_status_session {st : State} {rid ident : String}
    {b : Bool} {now : Nat} {room : Room}
    (hroom : PyDict.lookup st.rooms rid = some room)
    (hparse : PyInt.pyParseInt ident = none) :
    update_player_connection_status st rid ident b now
      = { st with rooms := (PyDict.insert st.rooms rid
          { room with players := (updateFirst
              (fun p => p.session_id = some ident)
              (fun p => { p with is_connected := b,
                                 last_seen := some now })
              room.players) }) } := by
  unfold update_player_connection_status
  rw [hroom, hparse]

theorem statusOK_update {st : State} (h : StatusOK st) (rid ident : String)
    (b : Bool) (now : Nat) :
    StatusOK (update_player_connection_status st rid ident b now) := by
  unfold update_player_connection_status
  cases hlr : PyDict.lookup st.rooms rid with
  | none => exact h
  | some room =>
    have hmem := PyDict.mem_of_lookup_eq_some hlr
    dsimp only
    cases PyInt.pyParseInt ident with
    | none =>
      intro p hp
      rcases PyDict.mem_insert hp with he | hm
      · rw [he]; exact h (rid, room) hmem
      · exact h p hm
    | some n =>
      dsimp only
      split <;>
        (intro p hp
         rcases PyDict.mem_insert hp with he | hm
         · rw [he]; exact h (rid, room) hmem
         · exact h p hm)

end RoomManager

namespace RoomManager

open Models

theorem assign_colors_status (room : Room) :
    (assign_colors room).status = room.status := by
  unfold assign_colors
  split
  · rfl
  · split
    · split
      · rfl
      · split <;> rfl
    · rfl

theorem statusOK_create {st : State} (h : StatusOK st) (rid : String) :
    StatusOK (create_omok_room st rid) := by
  intro p hp
  rcases PyDict.mem_insert hp with he | hm
  · rw [he]
    intro hc
    cases hc
  · exact h p hm

theorem statusOK_addConn {st : State} (h : StatusOK st) (rid : String)
    (ws : Nat) : StatusOK (add_connection st rid ws) := h

theorem statusOK_addPlayer {st : State} (h : StatusOK st)
    (rid nickname sid : String) (now : Nat) :
    StatusOK ((add_player_to_room st rid nickname sid now).1) := by
  unfold add_player_to_room
  cases hlr : PyDict.lookup st.rooms rid with
  | none => exact h
  | some room =>
    have hmem := PyDict.mem_of_lookup_eq_some hlr
    dsimp only
    split
    · exact h
    · split
      · intro p hp
        rcases PyDict.mem_insert hp with he | hm
        · rw [he]; exact h (rid, room) hmem
        · exact h p hm
      · intro p hp
        rcases PyDict.mem_insert hp with he | hm
        · rw [he]
          dsimp only
          split
          · rw [assign_colors_status]
            intro hc
            cases hc
          · exact h (rid, room) hmem
        · exact h p hm

theorem statusOK_removeConn {st : State} (h : StatusOK st) (rid : String)
    (ws : Nat) (sid : Option String) (now : Nat) :
    StatusOK (remove_connection st rid ws sid now) := by
  unfold remove_connection
  split
  · dsimp only
    by_cases ht : truthyStr sid = true
    · rw [if_pos ht]
      have h2 : StatusOK (update_player_connection_status
          { st with connections := (PyDict.insert st.connections rid
            (((PyDict.lookup st.connections rid).getD ∅).erase ws)) }
          rid (sid.getD "") false now) :=
        @statusOK_update { st with connections :=
          (PyDict.insert st.connections rid
            (((PyDict.lookup st.connections rid).getD ∅).erase ws)) }
          h rid (sid.getD "") false now
      generalize hu : update_player_connection_status
          { st with connections := (PyDict.insert st.connections rid
            (((PyDict.lookup st.connections rid).getD ∅).erase ws)) }
          rid (sid.getD "") false now = u at h2 ⊢
      split
      · exact h2
      · split
        · split
          · split <;> exact h2
          · split
            · intro p hp
              exact h2 p (PyDict.mem_of_mem_erase hp)
            · exact h2
        · exact h2
    · rw [if_neg ht]
      have h2 : StatusOK ({ st with connections :=
          (PyDict.insert st.connections rid
            (((PyDict.lookup st.connections rid).getD ∅).erase ws)) }
          : State) := h
      generalize hu : ({ st with connections :=
          (PyDict.insert st.connections rid
            (((PyDict.lookup st.connections rid).getD ∅).erase ws)) }
          : State) = u at h2 ⊢
      split
      · exact h2
      · split
        · split
          · split <;> exact h2
          · split
            · intro p hp
              exact h2 p (PyDict.mem_of_mem_erase hp)
            · exact h2
        · exact h2
  · exact h

end RoomManager

namespace RoomManager

open Models

theorem statusOK_cleanup {st : State} (h : StatusOK st) (rid : String) :
    StatusOK (cleanup_room_after_delay st rid) := by
  unfold cleanup_room_after_delay
  cases PyDict.lookup st.rooms rid with
  | none => exact h
  | some room =>
    dsimp only
    by_cases hc : PyDict.contains st.connections rid = true ∧
        ((PyDict.lookup st.connections rid).getD ∅) = ∅ ∧
        room.players.all (fun p => !p.is_connected) = true
    · rw [if_pos hc]
      split
      · intro p hp
        exact h p (PyDict.mem_of_mem_erase hp)
      · intro p hp
        exact h p (PyDict.mem_of_mem_erase hp)
    · rw [if_neg hc]
      split
      · exact h
      · exact h

theorem statusOK_reconnect {st : State} (h : StatusOK st)
    (rid sid : String) (ws : Nat) (now : Nat) :
    StatusOK (handle_reconnection st rid sid ws now) := by
  unfold handle_reconnection
  dsimp only
  split
  · exact @statusOK_update
      (add_connection { st with
        cancelled := (st.cancelled ∪
          ((PyDict.lookup st.room_timers rid).map
            (fun t => ({t} : Finset Nat))).getD ∅),
        room_timers := PyDict.erase st.room_timers rid } rid ws)
      (fun p hp => h p hp) rid sid true now
  · exact @statusOK_update (add_connection st rid ws)
      (fun p hp => h p hp) rid sid true now

theorem statusOK_applyOp {st : State} (h : StatusOK st) (op : Op) :
    StatusOK (applyOp st op) := by
  cases op with
  | create rid => exact statusOK_create h rid
  | addPlayer rid nickname sid now => exact statusOK_addPlayer h rid nickname sid now
  | addConn rid ws => exact statusOK_addConn h rid ws
  | removeConn rid ws sid now => exact statusOK_removeConn h rid ws sid now
  | reconnect rid sid ws now => exact statusOK_reconnect h rid sid ws now
  | updateStatus rid ident b now => exact statusOK_update h rid ident b now
  | fire tid =>
    unfold applyOp
    dsimp only
    cases PyDict.lookup st.tasks tid with
    | none => exact h
    | some rd =>
      dsimp only
      split
      · exact h
      · exact statusOK_cleanup h rd.1

theorem statusOK_runFrom {st : State} (h : StatusOK st) (ops : List Op) :
    StatusOK (runFrom st ops) := by
  induction ops generalizing st with
  | nil => exact h
  | cons op t ih => exact ih (statusOK_applyOp h op)

theorem statusOK_run (ops : List Op) : StatusOK (run ops) :=
  statusOK_runFrom (fun p hp => absurd hp (List.not_mem_nil p)) ops

end RoomManager

/-- C2: when a scheduled room-cleanup task fires, the room is deleted
only if, re-checked at fire time, it has no live connections and every
player is marked disconnected; if any connection or any connected
player exists at fire time, the room and its state are left in
place. -/
theorem cleanup_fire_rechecks (st : RoomManager.State) (tid : Nat)
    (rid : String) (delay : Nat)
    (htask : PyDict.lookup st.tasks tid = some (rid, delay)) :
    ((PyDict.lookup (RoomManager.applyOp st (.fire tid)).rooms rid = none ∧
        PyDict.lookup st.rooms rid ≠ none) →
      ((PyDict.lookup st.connections rid).getD ∅ = ∅ ∧
        ∀ room : Models.Room, PyDict.lookup st.rooms rid = some room →
          ∀ p ∈ room.players, p.is_connected = false)) ∧
    (∀ room : Models.Room, PyDict.lookup st.rooms rid = some room →
      ((PyDict.lookup st.connections rid).getD ∅ ≠ ∅ ∨
        ∃ p ∈ room.players, p.is_connected = true) →
      PyDict.lookup (RoomManager.applyOp st (.fire tid)).rooms rid
        = some room) := by
  have happ : RoomManager.applyOp st (.fire tid)
      = if tid ∈ st.cancelled then st
        else RoomManager.cleanup_room_after_delay st rid := by
    unfold RoomManager.applyOp
    dsimp only
    rw [htask]
  rw [happ]
  by_cases hcan : tid ∈ st.cancelled
  · rw [if_pos hcan]
    exact ⟨fun h12 => absurd h12.1 h12.2, fun room hroom _ => hroom⟩
  · rw [if_neg hcan]
    unfold RoomManager.cleanup_room_after_delay
    cases hlr : PyDict.lookup st.rooms rid with
    | none =>
      refine ⟨fun h12 => absurd rfl h12.2, ?_⟩
      intro room hroom
      cases hroom
    | some room =>
      dsimp only
      by_cases hc : PyDict.contains st.connections rid = true ∧
          ((PyDict.lookup st.connections rid).getD ∅) = ∅ ∧
          room.players.all (fun p => !p.is_connected) = true
      · rw [if_pos hc]
        constructor
        · rintro -
          refine ⟨hc.2.1, ?_⟩
          intro room' hroom'
          injection hroom' with he
          subst he
          intro p hp
          simpa using List.all_eq_true.mp hc.2.2 p hp
        · rintro room' hroom' hlive
          injection hroom' with he
          subst he
          exfalso
          rcases hlive with hne | ⟨p, hp, hpc⟩
          · exact hne hc.2.1
          · have := List.all_eq_true.mp hc.2.2 p hp
            rw [hpc] at this
            simp at this
      · rw [if_neg hc]
        constructor
        · rintro ⟨h1, -⟩
          revert h1
          split
          · intro h1
            dsimp only at h1
            rw [hlr] at h1
            cases h1
          · intro h1
            rw [hlr] at h1
            cases h1
        · rintro room' hroom' -
          injection hroom' with he
          subst he
          split
          · dsimp only
            exact hlr
          · exact hlr

/-- Fire-time state for the C2 witness: one room with a single
disconnected player, an empty connection entry, and a pending cleanup
task. -/
def c2FireState : RoomManager.State :=
  ⟨[("r", ⟨"r", 0, .waiting, [⟨"A", 1, some "s", none, false, none⟩],
      0, none⟩)],
   [("r", ∅)], [("r", 0)], [(0, ("r", 30))], ∅, 1⟩

/-- Witness for C2 at a concrete fire-time state. -/
theorem cleanup_fire_rechecks_witness :
    (PyDict.lookup c2FireState.connections "r").getD ∅ = ∅ ∧
    ∀ room : Models.Room,
      PyDict.lookup c2FireState.rooms "r" = some room →
      ∀ p ∈ room.players, p.is_connected = false :=
  (cleanup_fire_rechecks c2FireState 0 "r" 30 (by decide)).1
    ⟨by decide, by decide⟩

namespace RoomManager

open Models

theorem add_player_shape (st : State) (rid nickname sid : String)
    (now : Nat) : ∃ R P,
    add_player_to_room st rid nickname sid now = ({ st with rooms := R }, P) := by
  unfold add_player_to_room
  cases PyDict.lookup st.rooms rid with
  | none => exact ⟨st.rooms, none, rfl⟩
  | some room =>
    dsimp only
    split
    · exact ⟨st.rooms, none, rfl⟩
    · split
      · exact ⟨_, _, rfl⟩
      · exact ⟨_, _, rfl⟩

theorem cleanup_cancelled (st : State) (rid : String) :
    (cleanup_room_after_delay st rid).cancelled = st.cancelled := by
  unfold cleanup_room_after_delay
  cases PyDict.lookup st.rooms rid with
  | none => rfl
  | some room =>
    dsimp only
    split
    · split <;> rfl
    · split <;> rfl

theorem cancelled_applyOp (st : State) (op : Op) :
    st.cancelled ⊆ (applyOp st op).cancelled := by
  cases op with
  | create rid => exact Finset.Subset.refl _
  | addConn rid ws => exact Finset.Subset.refl _
  | addPlayer rid nickname sid now =>
    obtain ⟨R, P, hRP⟩ := add_player_shape st rid nickname sid now
    show st.cancelled ⊆ ((add_player_to_room st rid nickname sid now).1).cancelled
    rw [hRP]
  | updateStatus rid ident b now =>
    obtain ⟨R, hR⟩ := update_status_eq st rid ident b now
    show st.cancelled ⊆ (update_player_connection_status st rid ident b now).cancelled
    rw [hR]
  | reconnect rid sid ws now =>
    show st.cancelled ⊆ (handle_reconnection st rid sid ws now).cancelled
    unfold handle_reconnection
    dsimp only
    split
    · obtain ⟨R, hR⟩ := update_status_eq (add_connection { st with
        cancelled := (st.cancelled ∪
          ((PyDict.lookup st.room_timers rid).map
            (fun t => ({t} : Finset Nat))).getD ∅),
        room_timers := PyDict.erase st.room_timers rid } rid ws)
        rid sid true now
      rw [hR]
      exact Finset.subset_union_left
    · obtain ⟨R, hR⟩ := update_status_eq (add_connection st rid ws)
        rid sid true now
      rw [hR]
      exact Finset.Subset.refl _
  | fire tid =>
    show st.cancelled ⊆ (applyOp st (.fire tid)).cancelled
    unfold applyOp
    dsimp only
    cases PyDict.lookup st.tasks tid with
    | none => exact Finset.Subset.refl _
    | some rd =>
      dsimp only
      split
      · exact Finset.Subset.refl _
      · rw [cleanup_cancelled]
  | removeConn rid ws sid now =>
    show st.cancelled ⊆ (remove_connection st rid ws sid now).cancelled
    unfold remove_connection
    split
    · dsimp only
      by_cases ht : truthyStr sid = true
      · rw [if_pos ht]
        obtain ⟨R, hR⟩ := update_status_eq ({ st with connections :=
            (PyDict.insert st.connections rid
              (((PyDict.lookup st.connections rid).getD ∅).erase ws)) })
          rid (sid.getD "") false now
        rw [hR]
        dsimp only
        split
        · exact Finset.Subset.refl _
        · split
          · split
            · split
              · exact Finset.subset_union_left
              · exact Finset.Subset.refl _
            · split
              · exact Finset.Subset.refl _
              · exact Finset.Subset.refl _
          · exact Finset.Subset.refl _
      · rw [if_neg ht]
        split
        · exact Finset.Subset.refl _
        · split
          · split
            · split
              · exact Finset.subset_union_left
              · exact Finset.Subset.refl _
            · split
              · exact Finset.Subset.refl _
              · exact Finset.Subset.refl _
          · exact Finset.Subset.refl _
    · exact Finset.Subset.refl _

theorem cancelled_runFrom (st : State) (ops : List Op) :
    st.cancelled ⊆ (runFrom st ops).cancelled := by
  induction ops generalizing st with
  | nil => exact Finset.Subset.refl _
  | cons op t ih =>
    exact Finset.Subset.trans (cancelled_applyOp st op) (ih (applyOp st op))

theorem fire_cancelled_noop (st : State) (tid : Nat)
    (h : tid ∈ st.cancelled) : applyOp st (.fire tid) = st := by
  unfold applyOp
  dsimp only
  cases PyDict.lookup st.tasks tid with
  | none => rfl
  | some rd =>
    dsimp only
    rw [if_pos h]

end RoomManager

/-- C3: if a cleanup timer is pending for a room and a reconnection for
that room is handled before it fires, the pending timer's task is
cancelled and removed, the reconnecting player is marked connected, and
the cancelled task's firing is a no-op in every later state — the room
is never deleted by that timer. -/
theorem reconnection_cancels_timer (st : RoomManager.State)
    (rid sid : String) (ws now tid : Nat) (room : Models.Room)
    (htimer : PyDict.lookup st.room_timers rid = some tid)
    (hroom : PyDict.lookup st.rooms rid = some room)
    (hparse : PyInt.pyParseInt sid = none)
    (huniq : (room.players.filter
        (fun p => p.session_id = some sid)).length ≤ 1) :
    tid ∈ (RoomManager.handle_reconnection st rid sid ws now).cancelled ∧
    PyDict.lookup
      (RoomManager.handle_reconnection st rid sid ws now).room_timers rid
      = none ∧
    (∃ room', PyDict.lookup
        (RoomManager.handle_reconnection st rid sid ws now).rooms rid
        = some room' ∧
      room'.players.length = room.players.length ∧
      ∀ p ∈ room'.players, p.session_id = some sid →
        p.is_connected = true) ∧
    ∀ ops : List RoomManager.Op,
      RoomManager.applyOp
        (RoomManager.runFrom
          (RoomManager.handle_reconnection st rid sid ws now) ops)
        (.fire tid)
      = RoomManager.runFrom
          (RoomManager.handle_reconnection st rid sid ws now) ops := by
  have hcont : PyDict.contains st.room_timers rid = true := by
    unfold PyDict.contains
    rw [htimer]
    rfl
  have hsingle : ((PyDict.lookup st.room_timers rid).map
      (fun t => ({t} : Finset Nat))).getD ∅ = {tid} := by
    rw [htimer]
    rfl
  have hhr : RoomManager.handle_reconnection st rid sid ws now
      = RoomManager.update_player_connection_status
          (RoomManager.add_connection
            { st with
              cancelled := (st.cancelled ∪
                ((PyDict.lookup st.room_timers rid).map
                  (fun t => ({t} : Finset Nat))).getD ∅),
              room_timers := PyDict.erase st.room_timers rid } rid ws)
          rid sid true now := by
    unfold RoomManager.handle_reconnection
    dsimp only
    rw [if_pos hcont]
  have hupd := @RoomManager.update_status_session
    (RoomManager.add_connection
      { st with
        cancelled := (st.cancelled ∪
          ((PyDict.lookup st.room_timers rid).map
            (fun t => ({t} : Finset Nat))).getD ∅),
        room_timers := PyDict.erase st.room_timers rid } rid ws)
    rid sid true now room hroom hparse
  rw [hhr, hupd]
  refine ⟨?_, ?_, ?_, ?_⟩
  · show tid ∈ st.cancelled ∪ (((PyDict.lookup st.room_timers rid).map
      (fun t => ({t} : Finset Nat))).getD ∅)
    rw [hsingle]
    exact Finset.mem_union_right _ (Finset.mem_singleton_self tid)
  · show PyDict.lookup (PyDict.erase st.room_timers rid) rid = none
    exact PyDict.lookup_erase_self st.room_timers rid
  · refine ⟨{ room with players := (Models.updateFirst
        (fun p => p.session_id = some sid)
        (fun p => { p with is_connected := true, last_seen := some now })
        room.players) }, ?_, ?_, ?_⟩
    · exact PyDict.lookup_insert_self _ rid _
    · exact RoomManager.updateFirst_length _ _ room.players
    · exact RoomManager.updateFirst_session_connected huniq
  · intro ops
    apply RoomManager.fire_cancelled_noop
    apply RoomManager.cancelled_runFrom
    show tid ∈ st.cancelled ∪ (((PyDict.lookup st.room_timers rid).map
      (fun t => ({t} : Finset Nat))).getD ∅)
    rw [hsingle]
    exact Finset.mem_union_right _ (Finset.mem_singleton_self tid)

/-- The pre-reconnection state for the C3 witness: a pending cleanup
task (id 3) and one disconnected player. -/
def c3ReconnectState : RoomManager.State :=
  ⟨[("r", ⟨"r", 0, .playing, [⟨"A", 1, some "s", none, false, none⟩],
      0, none⟩)],
   [], [("r", 3)], [(3, ("r", 30))], ∅, 4⟩

/-- Witness for C3 at a concrete state. -/
theorem reconnection_cancels_timer_witness :
    3 ∈ (RoomManager.handle_reconnection
      c3ReconnectState "r" "s" 9 1).cancelled :=
  (reconnection_cancels_timer c3ReconnectState "r" "s" 9 1 3
    ⟨"r", 0, .playing, [⟨"A", 1, some "s", none, false, none⟩], 0, none⟩
    (by decide) (by decide) (by decide) (by decide)).1

/-- C4: a disconnect that removes the last live connection of a room
that still has players marks the disconnecting player disconnected and
arms the room's cleanup timer with the 30-minute grace period; the room
is not deleted synchronously by the disconnect.  This holds in every
state reachable through the facade, whose operations never produce an
`ended` room status. -/
theorem disconnect_arms_grace_timer
    (ops : List RoomManager.Op) (rid : String) (ws : Nat) (sid : String)
    (now : Nat) (room : Models.Room) (S : Finset Nat)
    (hroom : PyDict.lookup (RoomManager.run ops).rooms rid = some room)
    (hplayers : room.players ≠ [])
    (hconn : PyDict.lookup (RoomManager.run ops).connections rid = some S)
    (hlast : S.erase ws = ∅)
    (hsid : sid.isEmpty = false)
    (hparse : PyInt.pyParseInt sid = none)
    (huniq : (room.players.filter
        (fun p => p.session_id = some sid)).length ≤ 1) :
    (∃ room', PyDict.lookup
        (RoomManager.remove_connection (RoomManager.run ops) rid ws
          (some sid) now).rooms rid = some room' ∧
      room'.players.length = room.players.length ∧
      ∀ p ∈ room'.players, p.session_id = some sid →
        p.is_connected = false) ∧
    (∃ tid, PyDict.lookup
        (RoomManager.remove_connection (RoomManager.run ops) rid ws
          (some sid) now).room_timers rid = some tid ∧
      PyDict.lookup
        (RoomManager.remove_connection (RoomManager.run ops) rid ws
          (some sid) now).tasks tid = some (rid, 30)) := by
  have hstat : room.status ≠ Models.GameStatus.ended :=
    RoomManager.statusOK_run ops (rid, room)
      (PyDict.mem_of_lookup_eq_some hroom)
  have hcont : PyDict.contains
      (RoomManager.run ops).connections rid = true := by
    unfold PyDict.contains
    rw [hconn]
    rfl
  have ht : truthyStr (some sid) = true := by
    simp [truthyStr, hsid]
  have hupd := @RoomManager.update_status_session
    ({ RoomManager.run ops with connections :=
      (PyDict.insert (RoomManager.run ops).connections rid
        (((PyDict.lookup (RoomManager.run ops).connections rid).getD
          ∅).erase ws)) })
    rid sid false now room hroom hparse
  unfold RoomManager.remove_connection
  rw [if_pos hcont]
  dsimp only
  rw [if_pos ht]
  rw [show ((some sid).getD "") = sid from rfl]
  rw [hupd]
  dsimp only
  rw [PyDict.lookup_insert_self]
  dsimp only
  have hempty : ((PyDict.lookup (PyDict.insert
      (RoomManager.run ops).connections rid
      (((PyDict.lookup (RoomManager.run ops).connections rid).getD
        ∅).erase ws)) rid).getD ∅) = ∅ := by
    rw [PyDict.lookup_insert_self]
    simp only [Option.getD_some]
    rw [hconn]
    simpa using hlast
  rw [if_pos hempty]
  have hcond2 : (({ room with players := (Models.updateFirst
        (fun p => p.session_id = some sid)
        (fun p => { p with is_connected := false, last_seen := some now })
        room.players) } : Models.Room).status = Models.GameStatus.playing ∨
      ({ room with players := (Models.updateFirst
        (fun p => p.session_id = some sid)
        (fun p => { p with is_connected := false, last_seen := some now })
        room.players) } : Models.Room).status = Models.GameStatus.waiting) ∧
      ({ room with players := (Models.updateFirst
        (fun p => p.session_id = some sid)
        (fun p => { p with is_connected := false, last_seen := some now })
        room.players) } : Models.Room).players ≠ [] := by
    constructor
    · show room.status = Models.GameStatus.playing ∨
        room.status = Models.GameStatus.waiting
      cases hs : room.status with
      | waiting => exact Or.inr rfl
      | playing => exact Or.inl rfl
      | ended => exact absurd hs hstat
    · show Models.updateFirst
        (fun p => p.session_id = some sid)
        (fun p => { p with is_connected := false, last_seen := some now })
        room.players ≠ []
      intro hnil
      apply hplayers
      have := RoomManager.updateFirst_length
        (fun p => p.session_id = some sid)
        (fun p => { p with is_connected := false, last_seen := some now })
        room.players
      rw [hnil] at this
      exact List.length_eq_zero.mp this.symm
  rw [if_pos hcond2]
  constructor
  · refine ⟨{ room with players := (Models.updateFirst
        (fun p => p.session_id = some sid)
        (fun p => { p with is_connected := false, last_seen := some now })
        room.players) }, ?_, ?_, ?_⟩
    · split
      · exact PyDict.lookup_insert_self _ rid _
      · exact PyDict.lookup_insert_self _ rid _
    · exact RoomManager.updateFirst_length _ _ room.players
    · exact RoomManager.updateFirst_session_connected huniq
  · exact ⟨_, PyDict.lookup_insert_self _ rid _,
      PyDict.lookup_insert_self _ _ _⟩

/-- Witness for C4: the last connection of a one-player room is
removed, and the 30-minute cleanup task is armed. -/
theorem disconnect_arms_grace_timer_witness :
    ∃ tid, PyDict.lookup
        (RoomManager.remove_connection
          (RoomManager.run
            [.create "r", .addPlayer "r" "A" "s" 0, .addConn "r" 5])
          "r" 5 (some "s") 1).room_timers "r" = some tid ∧
      PyDict.lookup
        (RoomManager.remove_connection
          (RoomManager.run
            [.create "r", .addPlayer "r" "A" "s" 0, .addConn "r" 5])
          "r" 5 (some "s") 1).tasks tid = some ("r", 30) :=
  (disconnect_arms_grace_timer
    [.create "r", .addPlayer "r" "A" "s" 0, .addConn "r" 5] "r" 5 "s" 1
    ⟨"r", 0, .waiting, [⟨"A", 1, some "s", some 0, true, none⟩], 0, none⟩
    {5} (by decide) (by decide) (by decide) (by decide) (by decide)
    (by decide) (by decide)).2

/-! ### RoomLifecycleManager — `src/app/managers/room_lifecycle_manager.py`

Game managers: `create_room` comes from `BaseGameManager` (empty room
in `Waiting`); `OmokManager.assign_colors` shuffles colours on the
first game (the shuffle draw is the injected `flip`), and
`JanggiManager` inherits the base no-op `assign_colors`.  Game type 0
is omok, 1 is janggi. -/

namespace RoomLifecycleManager

open Models

structure State where
  rooms : List (String × Room)
  session_to_room : List (String × String)
  deriving DecidableEq

def initial : State := ⟨[], []⟩

/-- `create_room` (the uuid-derived room id is injected). -/
def create_room (st : State) (game_type : Nat) (rid : String) : State :=
  { st with rooms := (PyDict.insert st.rooms rid
      ⟨rid, game_type, .waiting, [], 0, none⟩) }

/-- `OmokManager.assign_colors`; `flip` is the `random.shuffle` draw. -/
def omok_assign_colors (flip : Bool) (room : Room) : Room :=
  if room.players.length ≠ 2 then room
  else if room.games_played = 0 then
    (match room.players with
     | [p1, p2] =>
        if flip then
          { room with players :=
              [{ p1 with color := some 2 }, { p2 with color := some 1 }] }
        else
          { room with players :=
              [{ p1 with color := some 1 }, { p2 with color := some 2 }] }
     | _ => room)
  else
    (match room.last_winner with
     | some w =>
        if w ≠ 0 then
          { room with players := (room.players.map (fun p =>
              if p.player_number = w then { p with color := some 2 }
              else { p with color := some 1 })) }
        else room
     | none => room)

/-- `add_player_to_room(room_id, nickname, session_id)`. -/
def add_player_to_room (st : State) (rid nickname session_id : String)
    (now : Nat) (flip : Bool) : State × Option Player :=
  match PyDict.lookup st.rooms rid with
  | none => (st, none)
  | some room =>
    if room.is_full then (st, none)
    else
      match room.players.find?
          (fun p => p.session_id = some session_id) with
      | some _ =>
          let room1 := { room with players := (updateFirst
              (fun p => p.session_id = some session_id)
              (fun p => { p with is_connected := true,
                                 last_seen := some now })
              room.players) }
          ({ st with rooms := PyDict.insert st.rooms rid room1 },
            room1.players.find? (fun p => p.session_id = some session_id))
      | none =>
          let player : Player :=
            ⟨nickname, room.players.length + 1, some session_id,
              some now, true, none⟩
          let room1 := { room with players := room.players ++ [player] }
          let room2 :=
            if room1.players.length = 2 then
              (if room.game_type = 0 then
                omok_assign_colors flip { room1 with status := .playing }
              else { room1 with status := .playing })
            else room1
          ({ rooms := PyDict.insert st.rooms rid room2,
             session_to_room :=
               PyDict.insert st.session_to_room session_id rid },
            some player)

/-- The `break`-style first-match removal of
`remove_player_from_room`'s loop (`room.players.remove(player)`). -/
def removeFirst (pred : Player → Bool) : List Player → List Player
  | [] => []
  | p :: rest => if pred p then rest else p :: removeFirst pred rest

/-- `remove_player_from_room(room_id, session_id)`. -/
def remove_player_from_room (st : State) (rid session_id : String) :
    State × Option Player :=
  match PyDict.lookup st.rooms rid with
  | none => (st, none)
  | some room =>
    match room.players.find? (fun p => p.session_id = some session_id) with
    | none => (st, none)
    | some player =>
        let room1 := { room with players := (removeFirst
            (fun p => p.session_id = some session_id) room.players) }
        let room2 :=
          if room1.players = [] then { room1 with status := .waiting }
          else if room1.players.length < 2 ∧
              room1.status = GameStatus.playing then
            { room1 with status := .waiting }
          else room1
        ({ rooms := PyDict.insert st.rooms rid room2,
           session_to_room :=
             if PyDict.contains st.session_to_room session_id then
               PyDict.erase st.session_to_room session_id
             else st.session_to_room },
          some player)

/-- `update_player_connection_status` (returns the success flag). -/
def update_player_connection_status (st : State) (rid ident : String)
    (is_connected : Bool) (now : Nat) : State × Bool :=
  match PyDict.lookup st.rooms rid with
  | none => (st, false)
  | some room =>
    let found := room.players.any (fun p => p.session_id = some ident)
    let bySession : Room :=
      { room with players := (updateFirst
          (fun p => p.session_id = some ident)
          (fun p => { p with is_connected := is_connected,
                             last_seen := some now }) room.players) }
    match PyInt.pyParseInt ident with
    | some n =>
        if room.players.any (fun p => (p.player_number : Int) = n) then
          ({ st with rooms := (PyDict.insert st.rooms rid
              { room with players := (updateFirst
                  (fun p => (p.player_number : Int) = n)
                  (fun p => { p with is_connected := is_connected,
                                     last_seen := some now })
                  room.players) }) }, true)
        else
          ({ st with rooms := PyDict.insert st.rooms rid bySession },
            found)
    | none =>
        ({ st with rooms := PyDict.insert st.rooms rid bySession }, found)

inductive Op where
  | create (game_type : Nat) (rid : String)
  | addPlayer (rid nickname sid : String) (now : Nat) (flip : Bool)
  | removePlayer (rid sid : String)
  | updateStatus (rid ident : String) (b : Bool) (now : Nat)

def applyOp (st : State) : Op → State
  | .create gt rid => create_room st gt rid
  | .addPlayer rid nickname sid now flip =>
      (add_player_to_room st rid nickname sid now flip).1
  | .removePlayer rid sid => (remove_player_from_room st rid sid).1
  | .updateStatus rid ident b now =>
      (update_player_connection_status st rid ident b now).1

def runFrom (st : State) (ops : List Op) : State := ops.foldl applyOp st

def run (ops : List Op) : State := runFrom initial ops

end RoomLifecycleManager

/-- C5 counterexample: once the room is full, a second
`add_player_to_room` call with the session id of an already-present
(disconnected) player returns `None` — not the existing Player — and
does not mark it connected, because `is_full()` is checked before the
rejoin scan. -/
theorem idempotent_rejoin_counterexample :
    (RoomLifecycleManager.add_player_to_room
      (RoomLifecycleManager.run
        [.create 0 "r", .addPlayer "r" "A" "sa" 0 false,
         .addPlayer "r" "B" "sb" 1 false,
         .updateStatus "r" "sa" false 2])
      "r" "A2" "sa" 3 false).2 = none ∧
    (PyDict.lookup (RoomLifecycleManager.add_player_to_room
      (RoomLifecycleManager.run
        [.create 0 "r", .addPlayer "r" "A" "sa" 0 false,
         .addPlayer "r" "B" "sb" 1 false,
         .updateStatus "r" "sa" false 2])
      "r" "A2" "sa" 3 false).1.rooms "r").map
        (fun r => r.players.map (fun p => (p.session_id, p.is_connected)))
      = some [(some "sa", false), (some "sb", true)] := by
  constructor <;> decide

/-- C6 counterexample: add two players, remove the first, add a third —
the third gets `player_number = len(players) + 1 = 2`, which collides
with the remaining player's number 2 (and is not the lowest unused
number, 1). -/
theorem player_number_counterexample :
    (PyDict.lookup (RoomLifecycleManager.run
        [.create 0 "r", .addPlayer "r" "A" "sa" 0 false,
         .addPlayer "r" "B" "sb" 1 false, .removePlayer "r" "sa",
         .addPlayer "r" "C" "sc" 2 false]).rooms "r").map
      (fun r => r.players.map (fun p => p.player_number))
      = some [2, 2] := by
  decide

namespace RoomLifecycleManager

open Models

theorem find?_updateFirst (pred : Player → Bool) (f : Player → Player)
    (hpres : ∀ p, pred (f p) = pred p) (ps : List Player) :
    (updateFirst pred f ps).find? pred = (ps.find? pred).map f := by
  induction ps with
  | nil => rfl
  | cons p rest ih =>
    by_cases hp : pred p = true
    · unfold updateFirst
      rw [if_pos hp, List.find?_cons_of_pos _ (by rw [hpres p]; exact hp),
        List.find?_cons_of_pos _ hp]
      rfl
    · unfold updateFirst
      rw [if_neg hp,
        List.find?_cons_of_neg _ (by simp [hp]),
        List.find?_cons_of_neg _ (by simp [hp]), ih]

end RoomLifecycleManager

/-- C5 (amended): calling `add_player_to_room` again with the session
id of a player already in the room never creates a second Player and
never changes the length of the players list; when the room is not
full, the call returns the already-present Player — original
`player_number`, marked connected; when the room is full, it returns
`None` and leaves the state unchanged (the `is_full()` check precedes
the rejoin scan). -/
theorem idempotent_rejoin (st : RoomLifecycleManager.State)
    (rid nickname sid : String) (now : Nat) (flip : Bool)
    (room : Models.Room)
    (hroom : PyDict.lookup st.rooms rid = some room)
    (hmem : room.players.any (fun p => p.session_id = some sid) = true) :
    (∀ room', PyDict.lookup
        (RoomLifecycleManager.add_player_to_room st rid nickname sid now
          flip).1.rooms rid = some room' →
      room'.players.length = room.players.length) ∧
    (room.is_full = true →
      RoomLifecycleManager.add_player_to_room st rid nickname sid now flip
        = (st, none)) ∧
    (room.is_full = false →
      ∃ q, (RoomLifecycleManager.add_player_to_room st rid nickname sid
          now flip).2 = some q ∧
        q.session_id = some sid ∧ q.is_connected = true ∧
        (room.players.find? (fun p => p.session_id = some sid)).map
          (fun p => p.player_number) = some q.player_number) := by
  unfold RoomLifecycleManager.add_player_to_room
  rw [hroom]
  dsimp only
  by_cases hfull : room.is_full = true
  · rw [if_pos hfull]
    refine ⟨?_, fun _ => rfl, fun hnf => absurd hfull (by rw [hnf]; simp)⟩
    intro room' hroom'
    rw [hroom] at hroom'
    injection hroom' with he
    rw [← he]
  · rw [if_neg hfull]
    obtain ⟨q0, hq0m, hq0p⟩ := List.any_eq_true.mp hmem
    cases hfind : room.players.find?
        (fun p => p.session_id = some sid) with
    | none =>
      exfalso
      have := List.find?_eq_none.mp hfind q0 hq0m
      exact this hq0p
    | some p0 =>
      dsimp only
      refine ⟨?_, fun hf => absurd hf hfull, fun _ => ?_⟩
      · intro room' hroom'
        rw [PyDict.lookup_insert_self] at hroom'
        injection hroom' with he
        rw [← he]
        exact RoomManager.updateFirst_length _ _ room.players
      · refine ⟨{ p0 with is_connected := true, last_seen := some now },
          ?_, ?_, rfl, ?_⟩
        · rw [RoomLifecycleManager.find?_updateFirst
            (fun p => p.session_id = some sid)
            (fun p => { p with is_connected := true,
                               last_seen := some now })
            (fun p => rfl) room.players, hfind]
          rfl
        · have := List.find?_some hfind
          simpa using this
        · rfl

/-- Witness for the amended C5: a rejoin into a non-full room returns
the existing player, connected. -/
theorem idempotent_rejoin_witness :
    ∃ q, (RoomLifecycleManager.add_player_to_room
        (RoomLifecycleManager.run
          [.create 0 "r", .addPlayer "r" "A" "sa" 0 false])
        "r" "A2" "sa" 1 false).2 = some q ∧
      q.session_id = some "sa" ∧ q.is_connected = true ∧
      ((⟨"r", 0, .waiting, [⟨"A", 1, some "sa", some 0, true, none⟩], 0,
          none⟩ : Models.Room).players.find?
        (fun p => p.session_id = some "sa")).map
          (fun p => p.player_number) = some q.player_number :=
  (idempotent_rejoin
    (RoomLifecycleManager.run
      [.create 0 "r", .addPlayer "r" "A" "sa" 0 false])
    "r" "A2" "sa" 1 false
    ⟨"r", 0, .waiting, [⟨"A", 1, some "sa", some 0, true, none⟩], 0, none⟩
    (by decide) (by decide)).2.2 (by decide)

namespace RoomLifecycleManager

open Models

theorem updateFirst_map_number (pred : Player → Bool)
    (f : Player → Player)
    (hf : ∀ p, (f p).player_number = p.player_number) (ps : List Player) :
    (updateFirst pred f ps).map (fun p => p.player_number)
      = ps.map (fun p => p.player_number) := by
  induction ps with
  | nil => rfl
  | cons p rest ih =>
    unfold updateFirst
    split
    · simp [hf p]
    · simp [ih]

theorem updateFirst_map_number_conn (pred : Player → Bool) (b : Bool)
    (now : Nat) (ps : List Player) :
    (updateFirst pred
        (fun p => { p with is_connected := b, last_seen := some now })
        ps).map (fun p => p.player_number)
      = ps.map (fun p => p.player_number) :=
  updateFirst_map_number pred
    (fun p => { p with is_connected := b, last_seen := some now })
    (fun _ => rfl) ps

theorem omok_assign_map_number (flip : Bool) (room : Room) :
    (omok_assign_colors flip room).players.map (fun p => p.player_number)
      = room.players.map (fun p => p.player_number) := by
  unfold omok_assign_colors
  by_cases h2 : room.players.length ≠ 2
  · rw [if_pos h2]
  · rw [if_neg h2]
    by_cases hg : room.games_played = 0
    · rw [if_pos hg]
      split
      · rename_i p1 p2 heq
        by_cases hf : flip = true
        · rw [if_pos hf]
          dsimp only
          rw [heq]
          rfl
        · rw [if_neg hf]
          dsimp only
          rw [heq]
          rfl
      · rfl
    · rw [if_neg hg]
      cases hw : room.last_winner with
      | none => rfl
      | some w =>
        dsimp only
        by_cases hw0 : w ≠ 0
        · rw [if_pos hw0]
          dsimp only
          rw [List.map_map]
          apply List.map_congr_left
          intro p hp
          dsimp only [Function.comp]
          by_cases hpn : p.player_number = w
          · simp [hpn]
          · simp [hpn]
        · rw [if_neg hw0]

theorem omok_assign_length (flip : Bool) (room : Room) :
    (omok_assign_colors flip room).players.length
      = room.players.length := by
  have h := congrArg List.length (omok_assign_map_number flip room)
  simpa using h

/-- Invariant for remove-free interleavings: every room's player
numbers are exactly the consecutive run `1..len` (in order) and a room
holds at most two players. -/
def PlayersOK (st : State) : Prop :=
  ∀ pr ∈ st.rooms,
    pr.2.players.map (fun p => p.player_number)
      = List.range' 1 pr.2.players.length ∧ pr.2.players.length ≤ 2

theorem playersOK_initial : PlayersOK initial := by
  intro pr hpr
  exact absurd hpr (List.not_mem_nil pr)

theorem playersOK_create (st : State) (gt : Nat) (rid : String)
    (h : PlayersOK st) : PlayersOK (create_room st gt rid) := by
  intro pr hpr
  unfold create_room at hpr
  dsimp only at hpr
  rcases PyDict.mem_insert hpr with he | hm
  · rw [he]
    exact ⟨rfl, Nat.zero_le 2⟩
  · exact h pr hm

theorem playersOK_addPlayer (st : State) (rid nickname sid : String)
    (now : Nat) (flip : Bool) (h : PlayersOK st) :
    PlayersOK (add_player_to_room st rid nickname sid now flip).1 := by
  unfold add_player_to_room
  cases hlr : PyDict.lookup st.rooms rid with
  | none => exact h
  | some room =>
    dsimp only
    by_cases hfull : room.is_full = true
    · rw [if_pos hfull]
      exact h
    · rw [if_neg hfull]
      have hroom : room.players.map (fun p => p.player_number)
          = List.range' 1 room.players.length ∧
          room.players.length ≤ 2 :=
        h (rid, room) (PyDict.mem_of_lookup_eq_some hlr)
      cases hfind : room.players.find?
          (fun p => p.session_id = some sid) with
      | some p0 =>
        dsimp only
        intro pr hpr
        dsimp only at hpr
        rcases PyDict.mem_insert hpr with he | hm
        · rw [he]
          dsimp only
          rw [updateFirst_map_number_conn,
            RoomManager.updateFirst_length]
          exact hroom
        · exact h pr hm
      | none =>
        dsimp only
        intro pr hpr
        dsimp only at hpr
        rcases PyDict.mem_insert hpr with he | hm
        · rw [he]
          dsimp only
          have hlt : room.players.length ≤ 1 := by
            have hnot : ¬ (2 ≤ room.players.length) := by
              simpa [Room.is_full] using hfull
            omega
          have hmap1 : (room.players ++
                [(⟨nickname, room.players.length + 1, some sid,
                  some now, true, none⟩ : Player)]).map
                (fun p => p.player_number)
              = List.range' 1 (room.players ++
                [(⟨nickname, room.players.length + 1, some sid,
                  some now, true, none⟩ : Player)]).length := by
            rw [List.map_append, hroom.1, List.length_append]
            show List.range' 1 room.players.length ++
                [room.players.length + 1]
              = List.range' 1 (room.players.length + 1)
            rw [List.range'_1_concat 1 room.players.length]
            rw [Nat.add_comm 1 room.players.length]
          have hlen1 : (room.players ++
                [(⟨nickname, room.players.length + 1, some sid,
                  some now, true, none⟩ : Player)]).length ≤ 2 := by
            have he1 : (room.players ++
                [(⟨nickname, room.players.length + 1, some sid,
                  some now, true, none⟩ : Player)]).length
              = room.players.length + 1 := by simp
            omega
          split
          · split
            · rw [omok_assign_map_number, omok_assign_length]
              dsimp only
              exact ⟨hmap1, hlen1⟩
            · dsimp only
              exact ⟨hmap1, hlen1⟩
          · dsimp only
            exact ⟨hmap1, hlen1⟩
        · exact h pr hm

theorem playersOK_update (st : State) (rid ident : String) (b : Bool)
    (now : Nat) (h : PlayersOK st) :
    PlayersOK (update_player_connection_status st rid ident b now).1 := by
  unfold update_player_connection_status
  cases hlr : PyDict.lookup st.rooms rid with
  | none => exact h
  | some room =>
    dsimp only
    have hroom : room.players.map (fun p => p.player_number)
        = List.range' 1 room.players.length ∧
        room.players.length ≤ 2 :=
      h (rid, room) (PyDict.mem_of_lookup_eq_some hlr)
    cases hpi : PyInt.pyParseInt ident with
    | some n =>
      dsimp only
      by_cases hany : room.players.any
          (fun p => (p.player_number : Int) = n) = true
      · rw [if_pos hany]
        intro pr hpr
        dsimp only at hpr
        rcases PyDict.mem_insert hpr with he | hm
        · rw [he]
          dsimp only
          rw [updateFirst_map_number_conn,
            RoomManager.updateFirst_length]
          exact hroom
        · exact h pr hm
      · rw [if_neg hany]
        intro pr hpr
        dsimp only at hpr
        rcases PyDict.mem_insert hpr with he | hm
        · rw [he]
          dsimp only
          rw [updateFirst_map_number_conn,
            RoomManager.updateFirst_length]
          exact hroom
        · exact h pr hm
    | none =>
      dsimp only
      intro pr hpr
      dsimp only at hpr
      rcases PyDict.mem_insert hpr with he | hm
      · rw [he]
        dsimp only
        rw [updateFirst_map_number_conn,
          RoomManager.updateFirst_length]
        exact hroom
      · exact h pr hm

/-- Does the op remove a player? -/
def isRemove : Op → Bool
  | .removePlayer _ _ => true
  | _ => false

/-- No `remove_player_from_room` call in the sequence. -/
def NoRemove (ops : List Op) : Bool := ops.all (fun op => ! isRemove op)

theorem playersOK_applyOp (st : State) (op : Op)
    (hop : isRemove op = false) (h : PlayersOK st) :
    PlayersOK (applyOp st op) := by
  cases op with
  | create gt rid => exact playersOK_create st gt rid h
  | addPlayer rid nickname sid now flip =>
      exact playersOK_addPlayer st rid nickname sid now flip h
  | removePlayer rid sid => simp [isRemove] at hop
  | updateStatus rid ident b now =>
      exact playersOK_update st rid ident b now h

theorem playersOK_runFrom (ops : List Op) :
    ∀ st, NoRemove ops = true → PlayersOK st →
      PlayersOK (runFrom st ops) := by
  induction ops with
  | nil => intro st _ h; exact h
  | cons op rest ih =>
    intro st hops h
    simp only [NoRemove, List.all_cons, Bool.and_eq_true] at hops
    have h1 : isRemove op = false := by simpa using hops.1
    show PlayersOK (runFrom (applyOp st op) rest)
    exact ih (applyOp st op) hops.2 (playersOK_applyOp st op h1 h)

end RoomLifecycleManager

/-- C6 (amended): `add_player_to_room` assigns a newly created player
the number `len(players) + 1` — the next number in sequence, not the
lowest unused one — and consequently the claimed invariant (pairwise
distinct player numbers in `1..maxPlayers = 2`) holds for every state
reachable by interleavings of `create_room`, `add_player_to_room` and
`update_player_connection_status` without `remove_player_from_room`:
there every room's numbers are exactly `1..len`. With
`remove_player_from_room` interleaved the original claim fails (see
the counterexample: numbers `[2, 2]`). -/
theorem player_number_assignment
    (st : RoomLifecycleManager.State) (rid nickname sid : String)
    (now : Nat) (flip : Bool) (room : Models.Room)
    (ops : List RoomLifecycleManager.Op) (rid2 : String)
    (room2 : Models.Room)
    (hroom : PyDict.lookup st.rooms rid = some room)
    (hfull : room.is_full = false)
    (hnew : room.players.find? (fun p => p.session_id = some sid)
      = none)
    (hops : RoomLifecycleManager.NoRemove ops = true)
    (hroom2 : PyDict.lookup
      (RoomLifecycleManager.run ops).rooms rid2 = some room2) :
    (∃ q, (RoomLifecycleManager.add_player_to_room st rid nickname sid
        now flip).2 = some q ∧
      q.player_number = room.players.length + 1) ∧
    ((room2.players.map (fun p => p.player_number)).Nodup ∧
      ∀ p ∈ room2.players,
        1 ≤ p.player_number ∧ p.player_number ≤ 2) := by
  constructor
  · unfold RoomLifecycleManager.add_player_to_room
    rw [hroom]
    dsimp only
    have hfull' : ¬ room.is_full = true := by simp [hfull]
    rw [if_neg hfull', hnew]
    dsimp only
    exact ⟨_, rfl, rfl⟩
  · have hOK : RoomLifecycleManager.PlayersOK
        (RoomLifecycleManager.run ops) :=
      RoomLifecycleManager.playersOK_runFrom ops
        RoomLifecycleManager.initial hops
        RoomLifecycleManager.playersOK_initial
    have h2 : room2.players.map (fun p => p.player_number)
        = List.range' 1 room2.players.length ∧
        room2.players.length ≤ 2 :=
      hOK (rid2, room2) (PyDict.mem_of_lookup_eq_some hroom2)
    constructor
    · rw [h2.1]
      exact List.nodup_range' 1 room2.players.length
    · intro p hp
      have hmem : p.player_number ∈ room2.players.map
          (fun p => p.player_number) :=
        List.mem_map_of_mem _ hp
      rw [h2.1] at hmem
      have hb := List.mem_range'_1.mp hmem
      have hc2 := h2.2
      obtain ⟨hb1, hb2⟩ := hb
      exact ⟨hb1, by omega⟩

/-- Witness for the amended C6: a fresh join into a one-player room
gets number `2`; a remove-free run leaves distinct numbers in `1..2`. -/
theorem player_number_assignment_witness :
    (∃ q, (RoomLifecycleManager.add_player_to_room
        (RoomLifecycleManager.run
          [.create 0 "r", .addPlayer "r" "A" "sa" 0 false])
        "r" "B" "sb" 1 false).2 = some q ∧ q.player_number = 2) ∧
    ((([(⟨"A", 1, some "sa", some 0, true, none⟩ : Models.Player)]).map
        (fun p => p.player_number)).Nodup ∧
      ∀ p ∈ [(⟨"A", 1, some "sa", some 0, true, none⟩ : Models.Player)],
        1 ≤ p.player_number ∧ p.player_number ≤ 2) :=
  player_number_assignment
    (RoomLifecycleManager.run
      [.create 0 "r", .addPlayer "r" "A" "sa" 0 false])
    "r" "B" "sb" 1 false
    ⟨"r", 0, .waiting, [⟨"A", 1, some "sa", some 0, true, none⟩], 0,
      none⟩
    [.create 0 "r", .addPlayer "r" "A" "sa" 0 false] "r"
    ⟨"r", 0, .waiting, [⟨"A", 1, some "sa", some 0, true, none⟩], 0,
      none⟩
    (by decide) (by decide) (by decide) (by decide) (by decide)
